import Mathlib

/-!
Verification of the incremental cache-refresh logic of `fetch_data.py`
(Deni Avdija analytics dashboard data fetcher).

The script loads a pickled cache snapshot, decides per dataset whether the
cached table can be reused, patches the current-season career row locally from
freshly fetched game logs, and saves the snapshot.  We embed the decision
logic shallowly: pandas DataFrames become a column list plus positional rows
of cells, the network-facing fetch functions become an abstract `Provider`
whose invocations are recorded in a call list, and Python exceptions
(`KeyError` from a missing column, `ValueError` from `int(...)`) become
`Option`/`none` results.
-/

namespace DeniFetch

/-- Season / column name string constants used by `fetch_data.py`. -/
def s2526 : String := "2025-26"

/-- The 2024-25 season key. -/
def s2425 : String := "2024-25"

/-- The 2023-24 season key. -/
def s2324 : String := "2023-24"

/-- The 2022-23 season key. -/
def s2223 : String := "2022-23"

/-- Name of the season-identifier column. -/
def sidCol : String := "SEASON_ID"

/-- Name of the games-played column. -/
def gpCol : String := "GP"

/-- One cell of a pandas DataFrame.  `num` holds any numeric value (pandas
numbers, including numeric strings after `pd.to_numeric`); `str` holds a
non-numeric string; `na` is `NaN`/missing. -/
inductive Cell where
  | num (q : ℚ)
  | str (s : String)
  | na
deriving DecidableEq, Repr

/-- A pandas DataFrame: a list of column names and rows of cells aligned
positionally with the columns. -/
structure DF where
  cols : List String
  rows : List (List Cell)
deriving DecidableEq, Repr

/-- `pandas.DataFrame.empty`: true when either axis has length 0. -/
def DF.isEmpty (df : DF) : Bool := df.rows.isEmpty || df.cols.isEmpty

/-- A DataFrame is rectangular: every row as long as the column list.
Real pandas frames always satisfy this. -/
def DF.WF (df : DF) : Prop := ∀ r ∈ df.rows, r.length = df.cols.length

instance (df : DF) : Decidable df.WF := by
  unfold DF.WF; infer_instance

/-- A Python value that is either `None` or a DataFrame. -/
abbrev PDF := Option DF

/-- `is_valid_df` (fetch_data.py line 48): `df is not None and not df.empty`. -/
def is_valid_df : PDF → Bool
  | none => false
  | some df => !df.isEmpty

/-- The `"key" in existing_data and is_valid_df(existing_data["key"])` pattern
used throughout `main`: outer `none` means the key is absent. -/
def cacheEntryValid : Option PDF → Bool
  | none => false
  | some v => is_valid_df v

/-- Read a cell of a row, `Cell.na` when out of range. -/
def getCell (r : List Cell) (j : Nat) : Cell := (r.get? j).getD Cell.na

/-- Index of the first column with the given name. -/
def idxOf? : List String → String → Option Nat
  | [], _ => none
  | c :: t, s => if c = s then some 0 else (idxOf? t s).map (· + 1)

/-- Index of a named column in a frame (`KeyError` when `none`). -/
def colIdx (df : DF) (c : String) : Option Nat := idxOf? df.cols c

/-- Elementwise `series == "..."` comparison: only a string cell can match. -/
def cellEqStr (c : Cell) (s : String) : Bool :=
  match c with
  | .str t => t = s
  | _ => false

/-- Numeric view of a cell after `pd.to_numeric(..., errors="coerce").fillna(0)`:
numbers stay, everything else becomes 0. -/
def cellToQ : Cell → ℚ
  | .num q => q
  | _ => 0

/-- Python `int(...)` on a cell: truncates a number toward zero,
raises (`none`) on `NaN` or a non-numeric string. -/
def cellToInt : Cell → Option Int
  | .num q => some (q.num.tdiv q.den)
  | _ => none

/-- The stat columns coerced by `local_patch_career_stats` (line 70). -/
def cols_to_agg : List String :=
  ["MIN", "PTS", "REB", "AST", "STL", "BLK", "TOV",
   "FGM", "FGA", "FG3M", "FG3A", "FTM", "FTA", "PF"]

/-- Coerce one row: positions whose column name is in `cols_to_agg` become
numeric with non-numbers as 0 (`pd.to_numeric(...).fillna(0)`). -/
def coerceRowAux (cols : List String) : Nat → List Cell → List Cell
  | _, [] => []
  | j, c :: t =>
    (if cols_to_agg.contains (cols.getD j "") then Cell.num (cellToQ c) else c)
      :: coerceRowAux cols (j + 1) t

/-- Coerce one row, starting at position 0. -/
def coerceRow (cols : List String) (r : List Cell) : List Cell :=
  coerceRowAux cols 0 r

/-- The in-place numeric coercion of the game-log columns
(fetch_data.py lines 72-74). -/
def coerceLogs (df : DF) : DF :=
  ⟨df.cols, df.rows.map (coerceRow df.cols)⟩

/-- Sum of the numeric view of a column at a fixed position over all rows. -/
def rowSumAt (rows : List (List Cell)) (j : Nat) : ℚ :=
  (rows.map (fun r => cellToQ (getCell r j))).sum

/-- `logs[c].sum()` for a coerced column, `none` when the column is absent. -/
def colSum (df : DF) (c : String) : Option ℚ :=
  (colIdx df c).map (fun j => rowSumAt df.rows j)

/-- `logs[c].mean()` for a coerced column, `none` when the column is absent. -/
def colMean (df : DF) (c : String) : Option ℚ :=
  (colSum df c).map (fun s => s / (df.rows.length : ℚ))

/-- `logs[c].mean() if c in logs.columns else 0` (the guarded entries of
`updated_row`). -/
def meanOr0 (df : DF) (c : String) : ℚ := (colMean df c).getD 0

/-- `(logs[mk].sum() / logs[att].sum()) if logs[att].sum() > 0 else 0` with
Python evaluation order: the attempts column is read first, the makes column
only when the attempt sum is positive. -/
def pctCalc (df : DF) (mk att : String) : Option ℚ := do
  let sa ← colSum df att
  if 0 < sa then
    let sm ← colSum df mk
    pure (sm / sa)
  else
    pure 0

/-- The `updated_row` dict of `local_patch_career_stats` (lines 80-101) as an
ordered key/value list; `none` when building it raises a `KeyError`
(the PTS, REB, AST reads and the percentage numerator/denominator reads are
unguarded in the source). -/
def updated_row_calc (logs' : DF) (true_gp : Nat) : Option (List (String × ℚ)) := do
  let pts ← colMean logs' "PTS"
  let reb ← colMean logs' "REB"
  let ast ← colMean logs' "AST"
  let fg ← pctCalc logs' "FGM" "FGA"
  let fg3 ← pctCalc logs' "FG3M" "FG3A"
  let ft ← pctCalc logs' "FTM" "FTA"
  pure [("GP", (true_gp : ℚ)), ("GS", (true_gp : ℚ)),
        ("MIN", meanOr0 logs' "MIN"), ("PTS", pts), ("REB", reb), ("AST", ast),
        ("STL", meanOr0 logs' "STL"), ("BLK", meanOr0 logs' "BLK"),
        ("TOV", meanOr0 logs' "TOV"), ("PF", meanOr0 logs' "PF"),
        ("FGM", meanOr0 logs' "FGM"), ("FGA", meanOr0 logs' "FGA"),
        ("FG3M", meanOr0 logs' "FG3M"), ("FG3A", meanOr0 logs' "FG3A"),
        ("FTM", meanOr0 logs' "FTM"), ("FTA", meanOr0 logs' "FTA"),
        ("FG_PCT", fg), ("FG3_PCT", fg3), ("FT_PCT", ft)]

/-- Index of the first row whose cell at position `j` equals the current
season string (`career_df.index[career_df["SEASON_ID"] == "2025-26"][0]`). -/
def firstIdxFrom (rows : List (List Cell)) (j : Nat) : Option Nat :=
  match rows with
  | [] => none
  | r :: t =>
    if cellEqStr (getCell r j) s2526 then some 0
    else (firstIdxFrom t j).map (· + 1)

/-- `career_df.at[idx, col] = val` for one column: writes the numeric value at
the column's position, no-op when the column is absent
(`if col in career_df.columns`). -/
def setColInRow (career : DF) (r : List Cell) (c : String) (v : ℚ) : List Cell :=
  match colIdx career c with
  | some j => r.set j (Cell.num v)
  | none => r

/-- Apply every `updated_row` assignment to one row (the
`for col, val in updated_row.items()` loop, lines 107-109). -/
def applyRow (career : DF) (ur : List (String × ℚ)) (r : List Cell) : List Cell :=
  ur.foldl (fun acc p => setColInRow career acc p.1 p.2) r

/-- Replace the row at `idx` by its updated version. -/
def applyUpdates (career : DF) (idx : Nat) (ur : List (String × ℚ)) : DF :=
  ⟨career.cols, career.rows.set idx (applyRow career ur (career.rows.getD idx []))⟩

/-- The part of `local_patch_career_stats` after the in-place coercion
(lines 76-111), acting on the already-coerced logs: compute `updated_row`,
locate the first current-season row and overwrite it.  `none` models an
uncaught `KeyError` (missing `PTS`/`REB`/`AST`/percentage column in the
logs, or missing `SEASON_ID` column in the career frame). -/
def local_patch_result (career_df logsC : DF) : Option DF :=
  if logsC.rows.length = 0 then some career_df
  else
    match updated_row_calc logsC logsC.rows.length with
    | none => none
    | some ur =>
      match colIdx career_df sidCol with
      | none => none
      | some j =>
        match firstIdxFrom career_df.rows j with
        | none => some career_df
        | some idx => some (applyUpdates career_df idx ur)

/-- `local_patch_career_stats` (fetch_data.py lines 64-111).  The first
component is the returned career frame, `none` when the Python function would
raise; the second component is the state of the `logs` argument after the
call (the numeric coercion on lines 72-74 mutates it in place, so the caller
observes it even when the function later raises). -/
def local_patch_career_stats (career_df logs : DF) : Option DF × DF :=
  if logs.isEmpty || career_df.isEmpty then (some career_df, logs)
  else (local_patch_result career_df (coerceLogs logs), coerceLogs logs)

/-- One provider endpoint invocation made by a run. -/
inductive PCall where
  | careerBasic
  | careerAdv
  | gameLog (season : String)
  | shotChart (season : String)
  | allstarStats
  | allstarDetailed
  | leagueFT
deriving DecidableEq, Repr

/-- The external data provider (the NBA stats endpoints), returning whatever
table each endpoint yields; the fetch wrappers in the source catch their own
exceptions and return an empty frame, so a plain `DF` result suffices. -/
structure Provider where
  careerBasicDF : DF
  careerAdvDF : DF
  gameLogDF : String → DF
  shotChartDF : String → DF
  allstarStatsDF : DF
  allstarDetailedDF : DF
  leagueFTDF : DF

/-- `existing_data.get(key, pd.DataFrame())`: absent key defaults to a fresh
empty frame; a present `None` value stays `None`. -/
def getOrEmptyDF : Option PDF → PDF
  | none => some ⟨[], []⟩
  | some v => v

/-- The career-stats decision in `main` (fetch_data.py lines 348-379):
reuse the cached career table when its current-season games-played count is
at least the freshly fetched log length, patch it locally when it lags, and
fully re-fetch both career datasets otherwise.  Result: the career basic
frame, the career advanced value, the (possibly coerced) current-season logs
and the provider calls made; `none` when the Python code would raise. -/
def careerStep (ce ae : Option PDF) (logs : DF) (p : Provider) :
    Option (DF × PDF × DF × List PCall) :=
  match ce with
  | some (some df) =>
    if is_valid_df (some df) then
      match colIdx df sidCol with
      | none => none
      | some j =>
        match df.rows.find? (fun row => cellEqStr (getCell row j) s2526) with
        | none => some (p.careerBasicDF, some p.careerAdvDF, logs,
                        [PCall.careerBasic, PCall.careerAdv])
        | some r =>
          match colIdx df gpCol with
          | none => none
          | some jgp =>
            match cellToInt (getCell r jgp) with
            | none => none
            | some g =>
              if (logs.rows.length : Int) ≤ g then
                some (df, getOrEmptyDF ae, logs, [])
              else
                match local_patch_career_stats df logs with
                | (some c, l) => some (c, getOrEmptyDF ae, l, [])
                | (none, _) => none
    else
      some (p.careerBasicDF, some p.careerAdvDF, logs,
            [PCall.careerBasic, PCall.careerAdv])
  | _ =>
    some (p.careerBasicDF, some p.careerAdvDF, logs,
          [PCall.careerBasic, PCall.careerAdv])

/-- Per-dataset refresh rule for the plain cached frames (lines 382-393):
reuse a valid cache entry with no provider call, otherwise fetch. -/
def refreshStep (e : Option PDF) (fresh : DF) (c : PCall) : DF × List PCall :=
  match e with
  | some (some df) => if is_valid_df (some df) then (df, []) else (fresh, [c])
  | _ => (fresh, [c])

/-- The loaded cache snapshot (`existing_data`): each field is the value
stored under the corresponding pickle key, `none` when the key is absent,
`some none` when it is present but `None`. -/
structure Cache where
  career_basic : Option PDF
  career_advanced : Option PDF
  game_logs_2024_25 : Option PDF
  game_logs_2023_24 : Option PDF
  shot_charts : Option (Option (List (String × PDF)))
  allstar_stats : Option PDF
  allstar_detailed_stats : Option PDF
  league_ft_stats : Option PDF
deriving DecidableEq, Repr

/-- The snapshot written at the end of a run (`data_dict`, lines 438-451);
the timestamp and player-identity metadata fields are constants not examined
by any claim and are omitted. -/
structure Snapshot where
  career_basic : DF
  career_advanced : PDF
  game_logs_2025_26 : DF
  game_logs_2024_25 : DF
  game_logs_2023_24 : DF
  shot_charts : List (String × PDF)
  allstar_stats : DF
  allstar_detailed_stats : PDF
  league_ft_stats : DF
deriving DecidableEq, Repr

/-- Lookup in the `shot_charts` dict. -/
def lookupA (m : List (String × PDF)) (k : String) : Option PDF :=
  (m.find? (fun q => q.1 = k)).map (fun q => q.2)

/-- Python dict assignment `d[k] = v`: replaces the value in place when the
key exists, otherwise appends the pair. -/
def setA (m : List (String × PDF)) (k : String) (v : PDF) : List (String × PDF) :=
  match m with
  | [] => [(k, v)]
  | (k0, v0) :: t => if k0 = k then (k, v) :: t else (k0, v0) :: setA t k v

/-- `existing_data.get("shot_charts", {})` followed by the `None` guard. -/
def shotBase (cache : Cache) : List (String × PDF) :=
  match cache.shot_charts with
  | some (some m) => m
  | _ => []

/-- The past seasons iterated on line 405. -/
def pastSeasons : List String := [s2223, s2324, s2425]

/-- One iteration of the past-seasons shot-chart loop (lines 405-411). -/
def shotSeasonStep (p : Provider) (acc : List (String × PDF) × List PCall)
    (season : String) : List (String × PDF) × List PCall :=
  match lookupA acc.1 season with
  | some v =>
    if is_valid_df v then acc
    else (setA acc.1 season (some (p.shotChartDF season)),
          acc.2 ++ [PCall.shotChart season])
  | none =>
    (setA acc.1 season (some (p.shotChartDF season)),
     acc.2 ++ [PCall.shotChart season])

/-- The All-Star block (lines 413-427): the reference table follows the
valid-cache rule; the detailed-metrics table is carried from the cache
(empty frame default) when the reference table is reused and is re-fetched
exactly when the reference table is. -/
def allstarStep (asE adE : Option PDF) (p : Provider) : DF × PDF × List PCall :=
  match asE with
  | some (some df) =>
    if is_valid_df (some df) then (df, getOrEmptyDF adE, [])
    else (p.allstarStatsDF, some p.allstarDetailedDF,
          [PCall.allstarStats, PCall.allstarDetailed])
  | _ =>
    (p.allstarStatsDF, some p.allstarDetailedDF,
     [PCall.allstarStats, PCall.allstarDetailed])

/-- The shot-chart block of `main` (lines 395-411): always re-fetch the
current season into the dict, then run the per-season refresh loop over the
past seasons; paired with the shot-chart provider calls in order. -/
def shotFold (cache : Cache) (p : Provider) : List (String × PDF) × List PCall :=
  List.foldl (shotSeasonStep p)
    (setA (shotBase cache) s2526 (some (p.shotChartDF s2526)), [PCall.shotChart s2526])
    pastSeasons

/-- Everything in `main` after the career decision: previous-season and
older-season logs, shot charts, All-Star data, the always-refetched league
leaderboard, and the assembled snapshot plus full ordered call list. -/
def restOfRun (cache : Cache) (p : Provider)
    (r : DF × PDF × DF × List PCall) : Snapshot × List PCall :=
  let l24 := refreshStep cache.game_logs_2024_25 (p.gameLogDF s2425) (PCall.gameLog s2425)
  let l23 := refreshStep cache.game_logs_2023_24 (p.gameLogDF s2324) (PCall.gameLog s2324)
  let sc := shotFold cache p
  let astar := allstarStep cache.allstar_stats cache.allstar_detailed_stats p
  (⟨r.1, r.2.1, r.2.2.1, l24.1, l23.1, sc.1, astar.1, astar.2.1, p.leagueFTDF⟩,
   PCall.gameLog s2526 ::
     (r.2.2.2 ++ l24.2 ++ l23.2 ++ sc.2 ++ astar.2.2 ++ [PCall.leagueFT]))

/-- One full run of `main` after the cache is loaded: fetch the current-season
logs, run the career decision, then every other dataset decision, and return
the snapshot that gets pickled together with the ordered list of provider
calls; `none` when the run dies on an uncaught exception (nothing saved). -/
def runMain (cache : Cache) (p : Provider) : Option (Snapshot × List PCall) :=
  (careerStep cache.career_basic cache.career_advanced (p.gameLogDF s2526) p).map
    (restOfRun cache p)

/-- The empty cache snapshot (`existing_data = {}`). -/
def emptyCache : Cache := ⟨none, none, none, none, none, none, none, none⟩

/-- The cache-load step (lines 328-337): `none` models a failed
deserialization (`pickle.load` raising), which degrades to the empty cache. -/
def loadCache : Option Cache → Cache
  | none => emptyCache
  | some c => c

/-- Modelled from the spec wording of section 4.2: the arithmetic mean of a
stat column over all log rows with missing values as 0, and 0 when the column
is absent.  Comparison target for the code's `updated_row` values. -/
def specStatMean (logs : DF) (c : String) : ℚ :=
  match colIdx logs c with
  | some j => rowSumAt logs.rows j / (logs.rows.length : ℚ)
  | none => 0

/-- Modelled from the spec wording: sum of a column over all log rows,
missing values as zero, 0 when the column is absent. -/
def specColSum (logs : DF) (c : String) : ℚ :=
  match colIdx logs c with
  | some j => rowSumAt logs.rows j
  | none => 0

/-- Modelled from the spec wording of section 4.2: sum of makes over sum of
attempts, 0 when the attempt sum is not positive. -/
def specShootingPct (logs : DF) (mk att : String) : ℚ :=
  if 0 < specColSum logs att then specColSum logs mk / specColSum logs att else 0

/-- The keys of the `updated_row` dict, in source order. -/
def urKeys : List String :=
  ["GP", "GS", "MIN", "PTS", "REB", "AST", "STL", "BLK", "TOV", "PF",
   "FGM", "FGA", "FG3M", "FG3A", "FTM", "FTA", "FG_PCT", "FG3_PCT", "FT_PCT"]

/-- The log columns the patch reads without an `in logs.columns` guard:
their absence raises a `KeyError`. -/
def reqCols : List String :=
  ["PTS", "REB", "AST", "FGM", "FGA", "FG3M", "FG3A", "FTM", "FTA"]

/-- The `updated_row` values expressed through the spec-level aggregates:
what the dict evaluates to when every unguarded column is present. -/
def urSpec (logs : DF) (n : Nat) : List (String × ℚ) :=
  [("GP", (n : ℚ)), ("GS", (n : ℚ)),
   ("MIN", specStatMean logs "MIN"), ("PTS", specStatMean logs "PTS"),
   ("REB", specStatMean logs "REB"), ("AST", specStatMean logs "AST"),
   ("STL", specStatMean logs "STL"), ("BLK", specStatMean logs "BLK"),
   ("TOV", specStatMean logs "TOV"), ("PF", specStatMean logs "PF"),
   ("FGM", specStatMean logs "FGM"), ("FGA", specStatMean logs "FGA"),
   ("FG3M", specStatMean logs "FG3M"), ("FG3A", specStatMean logs "FG3A"),
   ("FTM", specStatMean logs "FTM"), ("FTA", specStatMean logs "FTA"),
   ("FG_PCT", specShootingPct logs "FGM" "FGA"),
   ("FG3_PCT", specShootingPct logs "FG3M" "FG3A"),
   ("FT_PCT", specShootingPct logs "FTM" "FTA")]

/-- A provider all of whose endpoints return an empty frame, for concrete
witnesses and counterexamples. -/
def pZero : Provider :=
  ⟨⟨[], []⟩, ⟨[], []⟩, fun _ => ⟨[], []⟩, fun _ => ⟨[], []⟩, ⟨[], []⟩, ⟨[], []⟩, ⟨[], []⟩⟩

/-- A provider whose All-Star detailed endpoint returns a marked table, to
show the cached detailed table being replaced. -/
def pMark : Provider :=
  ⟨⟨[], []⟩, ⟨[], []⟩, fun _ => ⟨[], []⟩, fun _ => ⟨[], []⟩, ⟨[], []⟩,
   ⟨["X"], [[Cell.num 1]]⟩, ⟨[], []⟩⟩

/-- C1 counterexample input: cached career table with a current-season row
whose games-played is 0. -/
def c1cexCareer : DF :=
  ⟨[sidCol, gpCol, "PTS"], [[Cell.str s2526, Cell.num 0, Cell.num 0]]⟩

/-- C1 counterexample input: a one-game log table with no `PTS` column. -/
def c1cexLogs : DF := ⟨["AST"], [[Cell.num 5]]⟩

/-- C1 witness input: cached career table lagging behind the logs. -/
def c1wCareer : DF :=
  ⟨[sidCol, gpCol, "PTS", "FG_PCT"],
   [[Cell.str s2526, Cell.num 1, Cell.num 0, Cell.num 0]]⟩

/-- C1 witness input: a two-game log with every unguarded column present. -/
def c1wLogs : DF :=
  ⟨["PTS", "REB", "AST", "FGM", "FGA", "FG3M", "FG3A", "FTM", "FTA"],
   [[Cell.num 10, Cell.num 3, Cell.num 2, Cell.num 4, Cell.num 8,
     Cell.num 1, Cell.num 2, Cell.num 2, Cell.num 2],
    [Cell.num 20, Cell.num 5, Cell.num 4, Cell.num 6, Cell.num 12,
     Cell.num 2, Cell.num 4, Cell.num 4, Cell.num 4]]⟩

/-- C2 witness input: a cached career table whose current-season row already
records 10 games played. -/
def c2wCareer : DF :=
  ⟨[sidCol, gpCol], [[Cell.str s2526, Cell.num 10]]⟩

/-- C2 witness input: a one-game current-season log. -/
def c2wLogs : DF := ⟨["PTS"], [[Cell.num 1]]⟩

/-- C4 counterexample input: a valid (non-empty) cached career table with no
`SEASON_ID` column at all. -/
def c4cexCareer : DF := ⟨[gpCol], [[Cell.num 5]]⟩

/-- C5 and C9 witness input: a career table with a prior-season row and a
stale current-season row. -/
def c5wCareer : DF :=
  ⟨[sidCol, gpCol, "PTS"],
   [[Cell.str s2425, Cell.num 7, Cell.num 9], [Cell.str s2526, Cell.num 0, Cell.num 3]]⟩

/-- C5 and C9 witness input: a one-game all-zero log table. -/
def c5wLogs : DF :=
  ⟨["PTS", "REB", "AST", "FGM", "FGA", "FG3M", "FG3A", "FTM", "FTA"],
   [[Cell.num 0, Cell.num 0, Cell.num 0, Cell.num 0, Cell.num 0,
     Cell.num 0, Cell.num 0, Cell.num 0, Cell.num 0]]⟩

/-- The patched table `local_patch_career_stats c5wCareer c5wLogs` produces:
the prior-season row untouched, the current-season row recomputed. -/
def c5wPatched : DF :=
  ⟨[sidCol, gpCol, "PTS"],
   [[Cell.str s2425, Cell.num 7, Cell.num 9], [Cell.str s2526, Cell.num 1, Cell.num 0]]⟩

/-- C6 counterexample input: a cache whose career table is valid and has a
current-season row but no `GP` column, which makes the run raise. -/
def c6cexCache : Cache :=
  ⟨some (some ⟨[sidCol], [[Cell.str s2526]]⟩), none, none, none, none, none, none, none⟩

/-- C7 counterexample input: All-Star reference table absent from the cache,
All-Star detailed table cached and valid. -/
def c7cexCache : Cache :=
  ⟨none, none, none, none, none, none, some (some ⟨["Y"], [[Cell.num 2]]⟩), none⟩

/-- C7 witness input: previous-season logs cached and valid, everything else
absent. -/
def c7wCache : Cache :=
  ⟨none, none, some (some ⟨["PTS"], [[Cell.num 7]]⟩), none, none, none, none, none⟩

/-- C10 witness input: a one-game log with a non-numeric minutes cell and a
matchup column that must not be coerced. -/
def c10wLogs : DF :=
  ⟨["MIN", "MATCHUP"], [[Cell.str "DNP", Cell.str "POR vs LAL"]]⟩

/-- C10 witness input: any non-empty career frame. -/
def c10wCareer : DF := ⟨[sidCol], [[Cell.str s2526]]⟩

/-- Call list of a full cold-start run (every dataset fetched). -/
def fullCalls : List PCall :=
  [PCall.gameLog s2526, PCall.careerBasic, PCall.careerAdv,
   PCall.gameLog s2425, PCall.gameLog s2324,
   PCall.shotChart s2526, PCall.shotChart s2223, PCall.shotChart s2324,
   PCall.shotChart s2425, PCall.allstarStats, PCall.allstarDetailed,
   PCall.leagueFT]

/-- Snapshot saved by a cold-start run against the all-empty provider. -/
def c6wSnap : Snapshot :=
  ⟨⟨[], []⟩, some ⟨[], []⟩, ⟨[], []⟩, ⟨[], []⟩, ⟨[], []⟩,
   [(s2526, some ⟨[], []⟩), (s2223, some ⟨[], []⟩),
    (s2324, some ⟨[], []⟩), (s2425, some ⟨[], []⟩)],
   ⟨[], []⟩, some ⟨[], []⟩, ⟨[], []⟩⟩

/-- Snapshot saved by a run over `c7wCache` against the all-empty provider:
the valid cached previous-season logs survive verbatim. -/
def c7wSnap : Snapshot :=
  ⟨⟨[], []⟩, some ⟨[], []⟩, ⟨[], []⟩, ⟨["PTS"], [[Cell.num 7]]⟩, ⟨[], []⟩,
   [(s2526, some ⟨[], []⟩), (s2223, some ⟨[], []⟩),
    (s2324, some ⟨[], []⟩), (s2425, some ⟨[], []⟩)],
   ⟨[], []⟩, some ⟨[], []⟩, ⟨[], []⟩⟩

/-- Call list of the `c7wCache` run: everything fetched except the cached
2024-25 logs. -/
def c7wCalls : List PCall :=
  [PCall.gameLog s2526, PCall.careerBasic, PCall.careerAdv,
   PCall.gameLog s2324,
   PCall.shotChart s2526, PCall.shotChart s2223, PCall.shotChart s2324,
   PCall.shotChart s2425, PCall.allstarStats, PCall.allstarDetailed,
   PCall.leagueFT]

/-- Snapshot saved by the `c7cexCache` run against `pMark`: the valid cached
All-Star detailed table is overwritten by the marked provider table. -/
def c7cexSnap : Snapshot :=
  ⟨⟨[], []⟩, some ⟨[], []⟩, ⟨[], []⟩, ⟨[], []⟩, ⟨[], []⟩,
   [(s2526, some ⟨[], []⟩), (s2223, some ⟨[], []⟩),
    (s2324, some ⟨[], []⟩), (s2425, some ⟨[], []⟩)],
   ⟨[], []⟩, some ⟨["X"], [[Cell.num 1]]⟩, ⟨[], []⟩⟩

/-! Helper lemmas about rows, column indices and the row-update fold. -/

theorem getCell_cons_succ (a : Cell) (t : List Cell) (k : Nat) :
    getCell (a :: t) (k + 1) = getCell t k := rfl

theorem getCell_set_self (r : List Cell) (j : Nat) (v : Cell) (h : j < r.length) :
    getCell (r.set j v) j = v := by
  induction r generalizing j with
  | nil => simp at h
  | cons a t ih =>
    cases j with
    | zero => rfl
    | succ k => exact ih k (by simpa using h)

theorem getCell_set_ne (r : List Cell) (i j : Nat) (v : Cell) (h : i ≠ j) :
    getCell (r.set j v) i = getCell r i := by
  induction r generalizing i j with
  | nil => rfl
  | cons a t ih =>
    cases j with
    | zero =>
      cases i with
      | zero => exact absurd rfl h
      | succ k => rfl
    | succ m =>
      cases i with
      | zero => rfl
      | succ k => exact ih k m (fun hh => h (by rw [hh]))

theorem idxOf?_get? (l : List String) (s : String) (j : Nat)
    (h : idxOf? l s = some j) : l.get? j = some s := by
  induction l generalizing j with
  | nil => simp [idxOf?] at h
  | cons c t ih =>
    by_cases hc : c = s
    · simp [idxOf?, hc] at h
      subst hc
      rw [← h]
      rfl
    · simp [idxOf?, hc] at h
      obtain ⟨k, hk, rfl⟩ := h
      exact ih k hk

theorem idxOf?_lt (l : List String) (s : String) (j : Nat)
    (h : idxOf? l s = some j) : j < l.length := by
  have hg := idxOf?_get? l s j h
  by_contra hge
  rw [List.get?_eq_none.mpr (Nat.le_of_not_lt hge)] at hg
  exact Option.noConfusion hg

theorem colIdx_lt (df : DF) (c : String) (j : Nat) (h : colIdx df c = some j) :
    j < df.cols.length := idxOf?_lt df.cols c j h

theorem colIdx_inj (df : DF) (c c' : String) (j j' : Nat)
    (h : colIdx df c = some j) (h' : colIdx df c' = some j') (hne : c ≠ c') :
    j ≠ j' := by
  intro he
  subst he
  have h1 := idxOf?_get? df.cols c j h
  have h2 := idxOf?_get? df.cols c' j h'
  rw [h1] at h2
  exact hne (Option.some.inj h2)

theorem setColInRow_length (career : DF) (r : List Cell) (c : String) (v : ℚ) :
    (setColInRow career r c v).length = r.length := by
  unfold setColInRow
  cases colIdx career c <;> simp

theorem getCell_setColInRow_ne (career : DF) (r : List Cell) (c : String) (v : ℚ)
    (j : Nat) (h : colIdx career c ≠ some j) :
    getCell (setColInRow career r c v) j = getCell r j := by
  unfold setColInRow
  cases hc : colIdx career c with
  | none => rfl
  | some j' => exact getCell_set_ne r j j' _ (fun he => h (by rw [hc, he]))

theorem applyRow_cons (career : DF) (q : String × ℚ) (t : List (String × ℚ))
    (r : List Cell) :
    applyRow career (q :: t) r = applyRow career t (setColInRow career r q.1 q.2) := rfl

theorem applyRow_length (career : DF) (ur : List (String × ℚ)) (r : List Cell) :
    (applyRow career ur r).length = r.length := by
  induction ur generalizing r with
  | nil => rfl
  | cons q t ih =>
    rw [applyRow_cons, ih, setColInRow_length]

theorem getCell_applyRow_notkey (career : DF) (ur : List (String × ℚ))
    (r : List Cell) (j : Nat) (h : ∀ q ∈ ur, colIdx career q.1 ≠ some j) :
    getCell (applyRow career ur r) j = getCell r j := by
  induction ur generalizing r with
  | nil => rfl
  | cons q t ih =>
    rw [applyRow_cons, ih _ (fun a ha => h a (List.mem_cons_of_mem q ha)),
      getCell_setColInRow_ne career r q.1 q.2 j (h q (List.mem_cons_self q t))]

theorem getCell_applyRow_key (career : DF) (ur : List (String × ℚ)) (r : List Cell)
    (c : String) (v : ℚ) (j : Nat) (hnd : (ur.map Prod.fst).Nodup)
    (hmem : (c, v) ∈ ur) (hj : colIdx career c = some j) (hlen : j < r.length) :
    getCell (applyRow career ur r) j = Cell.num v := by
  induction ur generalizing r with
  | nil => simp at hmem
  | cons q t ih =>
    rw [applyRow_cons]
    rcases List.mem_cons.mp hmem with he | hmemt
    · have hq1 : q.1 = c := by rw [← he]
      have hnotin : ∀ a ∈ t, colIdx career a.1 ≠ some j := by
        intro a ha hca
        have hac : a.1 ≠ c := by
          intro hac
          have : q.1 ∈ t.map Prod.fst := by
            rw [hq1, ← hac]
            exact List.mem_map_of_mem Prod.fst ha
          exact (List.nodup_cons.mp hnd).1 this
        exact colIdx_inj career a.1 c j j hca hj hac rfl
      rw [getCell_applyRow_notkey career t _ j hnotin]
      unfold setColInRow
      rw [hq1, hj]
      have hv : q.2 = v := by rw [← he]
      rw [hv]
      exact getCell_set_self r j _ hlen
    · exact ih (setColInRow career r q.1 q.2) (List.nodup_cons.mp hnd).2 hmemt
        (by rw [setColInRow_length]; exact hlen)

theorem setColInRow_same (career : DF) (r : List Cell) (c : String) (v : ℚ) :
    setColInRow career (setColInRow career r c v) c v = setColInRow career r c v := by
  unfold setColInRow
  cases hc : colIdx career c with
  | none => rfl
  | some j => exact List.set_set (Cell.num v) (Cell.num v) r j

theorem setColInRow_comm (career : DF) (r : List Cell) (c c' : String) (v v' : ℚ)
    (h : c ≠ c') :
    setColInRow career (setColInRow career r c' v') c v
      = setColInRow career (setColInRow career r c v) c' v' := by
  unfold setColInRow
  cases h1 : colIdx career c with
  | none => cases h2 : colIdx career c' <;> rfl
  | some j =>
    cases h2 : colIdx career c' with
    | none => rfl
    | some j' =>
      exact List.set_comm (Cell.num v') (Cell.num v) r
        (colIdx_inj career c' c j' j h2 h1 (Ne.symm h))

theorem applyRow_setColInRow (career : DF) (t : List (String × ℚ)) (r : List Cell)
    (c : String) (v : ℚ) (h : ∀ a ∈ t, a.1 ≠ c) :
    applyRow career t (setColInRow career r c v)
      = setColInRow career (applyRow career t r) c v := by
  induction t generalizing r with
  | nil => rfl
  | cons q tt ih =>
    rw [applyRow_cons, applyRow_cons,
      ← setColInRow_comm career r c q.1 v q.2
        (fun hh => h q (List.mem_cons_self q tt) hh.symm)]
    exact ih _ (fun a ha => h a (List.mem_cons_of_mem q ha))

theorem applyRow_idem (career : DF) (ur : List (String × ℚ)) (r : List Cell)
    (hnd : (ur.map Prod.fst).Nodup) :
    applyRow career ur (applyRow career ur r) = applyRow career ur r := by
  induction ur generalizing r with
  | nil => rfl
  | cons q t ih =>
    have hne : ∀ a ∈ t, a.1 ≠ q.1 := by
      intro a ha hh
      exact (List.nodup_cons.mp hnd).1 (hh ▸ List.mem_map_of_mem Prod.fst ha)
    rw [applyRow_cons, applyRow_cons,
      ← applyRow_setColInRow career t (setColInRow career r q.1 q.2) q.1 q.2 hne,
      setColInRow_same, ih _ (List.nodup_cons.mp hnd).2]

/-! Lemmas about the numeric coercion and the column aggregates. -/

theorem coerceRowAux_length (cols : List String) (k : Nat) (r : List Cell) :
    (coerceRowAux cols k r).length = r.length := by
  induction r generalizing k with
  | nil => rfl
  | cons c t ih => simp [coerceRowAux, ih]

theorem cellToQ_coerceRowAux (cols : List String) (k j : Nat) (r : List Cell) :
    cellToQ (getCell (coerceRowAux cols k r) j) = cellToQ (getCell r j) := by
  induction r generalizing k j with
  | nil => rfl
  | cons c t ih =>
    cases j with
    | zero =>
      show cellToQ (if cols_to_agg.contains (cols.getD k "") then Cell.num (cellToQ c) else c)
        = cellToQ c
      by_cases hc : cols_to_agg.contains (cols.getD k "")
      · rw [if_pos hc]
        cases c <;> rfl
      · rw [if_neg hc]
    | succ m =>
      show cellToQ (getCell (coerceRowAux cols k (c :: t)) (m + 1)) = cellToQ (getCell t m)
      unfold coerceRowAux
      exact ih (k + 1) m

theorem coerceLogs_cols (df : DF) : (coerceLogs df).cols = df.cols := rfl

theorem coerceLogs_rows_length (df : DF) :
    (coerceLogs df).rows.length = df.rows.length := by
  simp [coerceLogs]

theorem colIdx_coerceLogs (df : DF) (c : String) :
    colIdx (coerceLogs df) c = colIdx df c := rfl

theorem rowSumAt_coerceLogs (df : DF) (j : Nat) :
    rowSumAt (coerceLogs df).rows j = rowSumAt df.rows j := by
  unfold rowSumAt coerceLogs coerceRow
  rw [List.map_map]
  congr 1
  apply List.map_congr_left
  intro r _
  exact cellToQ_coerceRowAux df.cols 0 j r

theorem colSum_coerceLogs (df : DF) (c : String) :
    colSum (coerceLogs df) c = colSum df c := by
  unfold colSum
  rw [colIdx_coerceLogs]
  cases colIdx df c with
  | none => rfl
  | some j => simp [rowSumAt_coerceLogs]

theorem colMean_coerceLogs (df : DF) (c : String) :
    colMean (coerceLogs df) c = colMean df c := by
  unfold colMean
  rw [colSum_coerceLogs, coerceLogs_rows_length]

theorem meanOr0_coerceLogs (df : DF) (c : String) :
    meanOr0 (coerceLogs df) c = meanOr0 df c := by
  unfold meanOr0
  rw [colMean_coerceLogs]

theorem pctCalc_coerceLogs (df : DF) (mk att : String) :
    pctCalc (coerceLogs df) mk att = pctCalc df mk att := by
  unfold pctCalc
  rw [colSum_coerceLogs, colSum_coerceLogs]

theorem specStatMean_coerceLogs (df : DF) (c : String) :
    specStatMean (coerceLogs df) c = specStatMean df c := by
  unfold specStatMean
  rw [colIdx_coerceLogs, coerceLogs_rows_length]
  cases colIdx df c with
  | none => rfl
  | some j => simp [rowSumAt_coerceLogs]

theorem meanOr0_spec (df : DF) (c : String) : meanOr0 df c = specStatMean df c := by
  unfold meanOr0 colMean colSum specStatMean
  cases colIdx df c <;> simp

theorem colMean_spec (df : DF) (c : String) (j : Nat) (h : colIdx df c = some j) :
    colMean df c = some (specStatMean df c) := by
  unfold colMean colSum specStatMean
  rw [h]
  rfl

theorem pctCalc_spec (df : DF) (mk att : String) (jm ja : Nat)
    (hm : colIdx df mk = some jm) (ha : colIdx df att = some ja) :
    pctCalc df mk att = some (specShootingPct df mk att) := by
  unfold pctCalc specShootingPct specColSum colSum
  rw [hm, ha]
  by_cases h0 : 0 < rowSumAt df.rows ja <;>
    simp [h0, Option.bind]

theorem updated_row_keys (l : DF) (n : Nat) (ur : List (String × ℚ))
    (h : updated_row_calc l n = some ur) : ur.map Prod.fst = urKeys := by
  unfold updated_row_calc at h
  simp only [Option.bind_eq_bind, Option.bind_eq_some, Option.pure_def,
    Option.some.injEq] at h
  obtain ⟨pts, _, reb, _, ast, _, fg, _, fg3, _, ft, _, hur⟩ := h
  rw [← hur]
  rfl

theorem updated_row_calc_eq (logs : DF) (n : Nat)
    (h : ∀ c ∈ reqCols, (colIdx logs c).isSome) :
    updated_row_calc (coerceLogs logs) n = some (urSpec logs n) := by
  have hj : ∀ c ∈ reqCols, ∃ j, colIdx logs c = some j := by
    intro c hc
    exact Option.isSome_iff_exists.mp (h c hc)
  obtain ⟨jPTS, hPTS⟩ := hj "PTS" (by simp [reqCols])
  obtain ⟨jREB, hREB⟩ := hj "REB" (by simp [reqCols])
  obtain ⟨jAST, hAST⟩ := hj "AST" (by simp [reqCols])
  obtain ⟨jFGM, hFGM⟩ := hj "FGM" (by simp [reqCols])
  obtain ⟨jFGA, hFGA⟩ := hj "FGA" (by simp [reqCols])
  obtain ⟨jFG3M, hFG3M⟩ := hj "FG3M" (by simp [reqCols])
  obtain ⟨jFG3A, hFG3A⟩ := hj "FG3A" (by simp [reqCols])
  obtain ⟨jFTM, hFTM⟩ := hj "FTM" (by simp [reqCols])
  obtain ⟨jFTA, hFTA⟩ := hj "FTA" (by simp [reqCols])
  unfold updated_row_calc
  rw [colMean_coerceLogs, colMean_coerceLogs, colMean_coerceLogs,
    pctCalc_coerceLogs, pctCalc_coerceLogs, pctCalc_coerceLogs,
    colMean_spec logs "PTS" jPTS hPTS, colMean_spec logs "REB" jREB hREB,
    colMean_spec logs "AST" jAST hAST,
    pctCalc_spec logs "FGM" "FGA" jFGM jFGA hFGM hFGA,
    pctCalc_spec logs "FG3M" "FG3A" jFG3M jFG3A hFG3M hFG3A,
    pctCalc_spec logs "FTM" "FTA" jFTM jFTA hFTM hFTA]
  simp only [Option.bind_eq_bind, Option.some_bind, Option.pure_def,
    meanOr0_coerceLogs, meanOr0_spec, specStatMean_coerceLogs]
  rfl

/-! Lemmas about locating and rewriting the current-season row. -/

theorem firstIdxFrom_get? (rows : List (List Cell)) (j idx : Nat)
    (h : firstIdxFrom rows j = some idx) :
    ∃ r, rows.get? idx = some r ∧ cellEqStr (getCell r j) s2526 = true := by
  induction rows generalizing idx with
  | nil => simp [firstIdxFrom] at h
  | cons r t ih =>
    unfold firstIdxFrom at h
    by_cases hc : cellEqStr (getCell r j) s2526
    · rw [if_pos hc] at h
      cases h
      exact ⟨r, rfl, hc⟩
    · rw [if_neg hc] at h
      obtain ⟨k, hk, hke⟩ := Option.map_eq_some'.mp h
      subst hke
      exact ih k hk

theorem firstIdxFrom_lt (rows : List (List Cell)) (j idx : Nat)
    (h : firstIdxFrom rows j = some idx) : idx < rows.length := by
  obtain ⟨r, hr, _⟩ := firstIdxFrom_get? rows j idx h
  by_contra hge
  rw [List.get?_eq_none.mpr (Nat.le_of_not_lt hge)] at hr
  exact Option.noConfusion hr

theorem firstIdxFrom_set (rows : List (List Cell)) (j idx : Nat)
    (r0 r' : List Cell) (hr0 : rows.get? idx = some r0)
    (hc : cellEqStr (getCell r' j) s2526 = cellEqStr (getCell r0 j) s2526) :
    firstIdxFrom (rows.set idx r') j = firstIdxFrom rows j := by
  induction rows generalizing idx with
  | nil => rfl
  | cons r t ih =>
    cases idx with
    | zero =>
      cases hr0
      show firstIdxFrom (r' :: t) j = firstIdxFrom (r0 :: t) j
      unfold firstIdxFrom
      rw [hc]
    | succ k =>
      show firstIdxFrom (r :: t.set k r') j = firstIdxFrom (r :: t) j
      unfold firstIdxFrom
      rw [ih k hr0]

/-! Structural lemmas about the patch and the career decision. -/

theorem local_patch_snd (career logs : DF) :
    (local_patch_career_stats career logs).2 = logs ∨
    (local_patch_career_stats career logs).2 = coerceLogs logs := by
  unfold local_patch_career_stats
  by_cases h : logs.isEmpty || career.isEmpty
  · rw [if_pos h]
    exact Or.inl rfl
  · rw [if_neg h]
    exact Or.inr rfl

theorem careerStep_logs (ce ae : Option PDF) (logs : DF) (p : Provider)
    (cb : DF) (ca : PDF) (l : DF) (cs : List PCall)
    (h : careerStep ce ae logs p = some (cb, ca, l, cs)) :
    l = logs ∨ l = coerceLogs logs := by
  rcases ce with _ | v
  · cases h
    exact Or.inl rfl
  rcases v with _ | df
  · cases h
    exact Or.inl rfl
  simp only [careerStep] at h
  by_cases hval : is_valid_df (some df)
  · rw [if_pos hval] at h
    cases hs : colIdx df sidCol with
    | none => rw [hs] at h; dsimp only at h; exact Option.noConfusion h
    | some j =>
      rw [hs] at h
      dsimp only at h
      cases hf : df.rows.find? (fun row => cellEqStr (getCell row j) s2526) with
      | none =>
        rw [hf] at h
        dsimp only at h
        cases h
        exact Or.inl rfl
      | some r =>
        rw [hf] at h
        dsimp only at h
        cases hg : colIdx df gpCol with
        | none => rw [hg] at h; dsimp only at h; exact Option.noConfusion h
        | some jgp =>
          rw [hg] at h
          dsimp only at h
          cases hi : cellToInt (getCell r jgp) with
          | none => rw [hi] at h; dsimp only at h; exact Option.noConfusion h
          | some g =>
            rw [hi] at h
            dsimp only at h
            by_cases hge : (logs.rows.length : Int) ≤ g
            · rw [if_pos hge] at h
              cases h
              exact Or.inl rfl
            · rw [if_neg hge] at h
              rcases hp : local_patch_career_stats df logs with ⟨res, l2⟩
              rw [hp] at h
              cases res with
              | none => exact Option.noConfusion h
              | some c2 =>
                cases h
                have := local_patch_snd df logs
                rw [hp] at this
                exact this
  · rw [if_neg hval] at h
    cases h
    exact Or.inl rfl

theorem careerStep_calls (ce ae : Option PDF) (logs : DF) (p : Provider)
    (cb : DF) (ca : PDF) (l : DF) (cs : List PCall)
    (h : careerStep ce ae logs p = some (cb, ca, l, cs)) :
    cs = [] ∨ cs = [PCall.careerBasic, PCall.careerAdv] := by
  rcases ce with _ | v
  · cases h
    exact Or.inr rfl
  rcases v with _ | df
  · cases h
    exact Or.inr rfl
  simp only [careerStep] at h
  by_cases hval : is_valid_df (some df)
  · rw [if_pos hval] at h
    cases hs : colIdx df sidCol with
    | none => rw [hs] at h; dsimp only at h; exact Option.noConfusion h
    | some j =>
      rw [hs] at h
      dsimp only at h
      cases hf : df.rows.find? (fun row => cellEqStr (getCell row j) s2526) with
      | none =>
        rw [hf] at h
        dsimp only at h
        cases h
        exact Or.inr rfl
      | some r =>
        rw [hf] at h
        dsimp only at h
        cases hg : colIdx df gpCol with
        | none => rw [hg] at h; dsimp only at h; exact Option.noConfusion h
        | some jgp =>
          rw [hg] at h
          dsimp only at h
          cases hi : cellToInt (getCell r jgp) with
          | none => rw [hi] at h; dsimp only at h; exact Option.noConfusion h
          | some g =>
            rw [hi] at h
            dsimp only at h
            by_cases hge : (logs.rows.length : Int) ≤ g
            · rw [if_pos hge] at h
              cases h
              exact Or.inl rfl
            · rw [if_neg hge] at h
              rcases hp : local_patch_career_stats df logs with ⟨res, l2⟩
              rw [hp] at h
              cases res with
              | none => exact Option.noConfusion h
              | some c2 =>
                cases h
                exact Or.inl rfl
  · rw [if_neg hval] at h
    cases h
    exact Or.inr rfl

/-! Lemmas about the shot-chart dict and the past-seasons loop. -/

theorem lookupA_cons (k0 : String) (v0 : PDF) (t : List (String × PDF)) (k : String) :
    lookupA ((k0, v0) :: t) k = if k0 = k then some v0 else lookupA t k := by
  unfold lookupA
  by_cases h : k0 = k
  · rw [if_pos h, List.find?_cons_of_pos _ (by simpa using h)]
    rfl
  · rw [if_neg h, List.find?_cons_of_neg _ (by simpa using h)]

theorem lookupA_setA_self (m : List (String × PDF)) (k : String) (v : PDF) :
    lookupA (setA m k v) k = some v := by
  induction m with
  | nil => simp [setA, lookupA_cons]
  | cons q t ih =>
    obtain ⟨k0, v0⟩ := q
    by_cases hq : k0 = k
    · simp [setA, hq, lookupA_cons]
    · rw [setA, if_neg hq, lookupA_cons, if_neg hq]
      exact ih

theorem lookupA_setA_ne (m : List (String × PDF)) (k k' : String) (v : PDF)
    (h : k' ≠ k) : lookupA (setA m k v) k' = lookupA m k' := by
  induction m with
  | nil => rw [setA, lookupA_cons, if_neg (fun he => h he.symm)]
  | cons q t ih =>
    obtain ⟨k0, v0⟩ := q
    by_cases hq : k0 = k
    · subst hq
      rw [setA, if_pos rfl, lookupA_cons, lookupA_cons,
        if_neg (fun he => h he.symm), if_neg (fun he => h he.symm)]
    · rw [setA, if_neg hq, lookupA_cons, lookupA_cons]
      by_cases hq' : k0 = k'
      · rw [if_pos hq', if_pos hq']
      · rw [if_neg hq', if_neg hq']
        exact ih

theorem shotSeasonStep_snd (p : Provider) (acc : List (String × PDF) × List PCall)
    (t : String) :
    (shotSeasonStep p acc t).2 = acc.2 ∨
    (shotSeasonStep p acc t).2 = acc.2 ++ [PCall.shotChart t] := by
  unfold shotSeasonStep
  cases lookupA acc.1 t with
  | none => exact Or.inr rfl
  | some v =>
    dsimp only
    by_cases hv : is_valid_df v
    · rw [if_pos hv]
      exact Or.inl rfl
    · rw [if_neg hv]
      exact Or.inr rfl

theorem shotSeasonStep_lookup_ne (p : Provider) (acc : List (String × PDF) × List PCall)
    (t s : String) (h : s ≠ t) :
    lookupA (shotSeasonStep p acc t).1 s = lookupA acc.1 s := by
  unfold shotSeasonStep
  cases lookupA acc.1 t with
  | none => exact lookupA_setA_ne acc.1 t s _ h
  | some v =>
    dsimp only
    by_cases hv : is_valid_df v
    · rw [if_pos hv]
    · rw [if_neg hv]
      exact lookupA_setA_ne acc.1 t s _ h

theorem shotFoldAux_calls (p : Provider) (L : List String) (m : List (String × PDF))
    (cs : List PCall) :
    ∃ ext, (List.foldl (shotSeasonStep p) (m, cs) L).2 = cs ++ ext ∧
      ∀ x ∈ ext, ∃ s ∈ L, x = PCall.shotChart s := by
  induction L generalizing m cs with
  | nil => exact ⟨[], by simp, by simp⟩
  | cons t T ih =>
    rw [List.foldl_cons]
    rcases hstep : shotSeasonStep p (m, cs) t with ⟨m1, cs1⟩
    have hsnd := shotSeasonStep_snd p (m, cs) t
    rw [hstep] at hsnd
    dsimp only at hsnd
    obtain ⟨ext, he, hx⟩ := ih m1 cs1
    rcases hsnd with h1 | h1
    · refine ⟨ext, by rw [he, h1], ?_⟩
      intro x hxe
      obtain ⟨s, hs, hxs⟩ := hx x hxe
      exact ⟨s, List.mem_cons_of_mem t hs, hxs⟩
    · refine ⟨PCall.shotChart t :: ext, ?_, ?_⟩
      · rw [he, h1]
        simp
      · intro x hxe
        rcases List.mem_cons.mp hxe with hxt | hxe'
        · exact ⟨t, List.mem_cons_self t T, hxt⟩
        · obtain ⟨s, hs, hxs⟩ := hx x hxe'
          exact ⟨s, List.mem_cons_of_mem t hs, hxs⟩

theorem shotFoldAux_lookup_ne (p : Provider) (L : List String)
    (m : List (String × PDF)) (cs : List PCall) (s : String) (h : s ∉ L) :
    lookupA (List.foldl (shotSeasonStep p) (m, cs) L).1 s = lookupA m s := by
  induction L generalizing m cs with
  | nil => rfl
  | cons t T ih =>
    rw [List.foldl_cons]
    rcases hstep : shotSeasonStep p (m, cs) t with ⟨m1, cs1⟩
    have hlk := shotSeasonStep_lookup_ne p (m, cs) t s
      (fun he => h (he ▸ List.mem_cons_self t T))
    rw [hstep] at hlk
    dsimp only at hlk
    rw [ih m1 cs1 (fun hm => h (List.mem_cons_of_mem t hm)), hlk]

theorem shotFoldAux_policy (p : Provider) (L : List String)
    (m : List (String × PDF)) (cs : List PCall) (s : String)
    (hmem : s ∈ L) (hnd : L.Nodup) :
    (cacheEntryValid (lookupA m s) = true →
       lookupA (List.foldl (shotSeasonStep p) (m, cs) L).1 s = lookupA m s ∧
       (PCall.shotChart s ∈ (List.foldl (shotSeasonStep p) (m, cs) L).2 ↔
          PCall.shotChart s ∈ cs)) ∧
    (cacheEntryValid (lookupA m s) = false →
       lookupA (List.foldl (shotSeasonStep p) (m, cs) L).1 s
         = some (some (p.shotChartDF s)) ∧
       PCall.shotChart s ∈ (List.foldl (shotSeasonStep p) (m, cs) L).2) := by
  induction L generalizing m cs with
  | nil => simp at hmem
  | cons t T ih =>
    rw [List.foldl_cons]
    by_cases hst : s = t
    · subst hst
      have hsT : s ∉ T := (List.nodup_cons.mp hnd).1
      constructor
      · intro hvalid
        have hstep : shotSeasonStep p (m, cs) s = (m, cs) := by
          unfold shotSeasonStep
          cases hl : lookupA m s with
          | none => rw [hl] at hvalid; exact absurd hvalid (by simp [cacheEntryValid])
          | some v =>
            rw [hl] at hvalid
            have hv : is_valid_df v = true := hvalid
            dsimp only
            rw [if_pos hv]
        rw [hstep]
        refine ⟨shotFoldAux_lookup_ne p T m cs s hsT, ?_⟩
        obtain ⟨ext, he, hx⟩ := shotFoldAux_calls p T m cs
        rw [he]
        simp only [List.mem_append]
        constructor
        · intro hc
          rcases hc with hc | hc
          · exact hc
          · obtain ⟨s', hs', hss⟩ := hx _ hc
            cases hss
            exact absurd hs' hsT
        · exact Or.inl
      · intro hinvalid
        have hstep : shotSeasonStep p (m, cs) s
            = (setA m s (some (p.shotChartDF s)), cs ++ [PCall.shotChart s]) := by
          unfold shotSeasonStep
          cases hl : lookupA m s with
          | none => rfl
          | some v =>
            rw [hl] at hinvalid
            have hv : is_valid_df v = false := hinvalid
            dsimp only
            rw [if_neg (by simp [hv])]
        rw [hstep]
        constructor
        · rw [shotFoldAux_lookup_ne p T _ _ s hsT]
          exact lookupA_setA_self m s _
        · obtain ⟨ext, he, _⟩ := shotFoldAux_calls p T (setA m s (some (p.shotChartDF s)))
            (cs ++ [PCall.shotChart s])
          rw [he]
          simp
    · have hsT : s ∈ T := by
        rcases List.mem_cons.mp hmem with h1 | h1
        · exact absurd h1 hst
        · exact h1
      rcases hstep : shotSeasonStep p (m, cs) t with ⟨m1, cs1⟩
      have hlk := shotSeasonStep_lookup_ne p (m, cs) t s hst
      rw [hstep] at hlk
      dsimp only at hlk
      have hsnd := shotSeasonStep_snd p (m, cs) t
      rw [hstep] at hsnd
      dsimp only at hsnd
      have hmemcs : PCall.shotChart s ∈ cs1 ↔ PCall.shotChart s ∈ cs := by
        rcases hsnd with h1 | h1
        · rw [h1]
        · rw [h1]
          simp only [List.mem_append, List.mem_singleton]
          constructor
          · intro hc
            rcases hc with hc | hc
            · exact hc
            · cases hc
              exact absurd rfl hst
          · exact Or.inl
      have hih := ih m1 cs1 hsT (List.nodup_cons.mp hnd).2
      rw [hlk] at hih
      refine ⟨fun hv => ?_, fun hv => ?_⟩
      · obtain ⟨hl, hm2⟩ := hih.1 hv
        exact ⟨hl, hm2.trans hmemcs⟩
      · exact hih.2 hv

/-! Generic list update lemmas and remaining step characterizations. -/

theorem listGetD_set_self {α : Type} (l : List α) (i : Nat) (v d : α)
    (h : i < l.length) : (l.set i v).getD i d = v := by
  induction l generalizing i with
  | nil => simp at h
  | cons a t ih =>
    cases i with
    | zero => rfl
    | succ k => exact ih k (by simpa using h)

theorem listGetD_of_get? {α : Type} (l : List α) (i : Nat) (r d : α)
    (h : l.get? i = some r) : l.getD i d = r := by
  unfold List.getD
  rw [h]
  rfl

theorem isEmpty_false_iff (df : DF) :
    df.isEmpty = false ↔ df.rows ≠ [] ∧ df.cols ≠ [] := by
  unfold DF.isEmpty
  rw [Bool.or_eq_false_iff]
  constructor
  · intro h
    exact ⟨fun he => by simp [he] at h, fun he => by simp [he] at h⟩
  · intro h
    exact ⟨by simpa using h.1, by simpa using h.2⟩

theorem refreshStep_valid (e : Option PDF) (fresh : DF) (c : PCall)
    (h : cacheEntryValid e = true) :
    ∃ df, e = some (some df) ∧ refreshStep e fresh c = (df, []) := by
  rcases e with _ | v
  · exact absurd h (by simp [cacheEntryValid])
  rcases v with _ | df
  · exact absurd h (by simp [cacheEntryValid, is_valid_df])
  refine ⟨df, rfl, ?_⟩
  unfold refreshStep
  dsimp only
  rw [if_pos (show is_valid_df (some df) = true from h)]

theorem refreshStep_invalid (e : Option PDF) (fresh : DF) (c : PCall)
    (h : cacheEntryValid e = false) :
    refreshStep e fresh c = (fresh, [c]) := by
  rcases e with _ | v
  · rfl
  rcases v with _ | df
  · rfl
  unfold refreshStep
  dsimp only
  simp only [cacheEntryValid] at h
  rw [if_neg (by simp [h])]

theorem allstarStep_valid (asE adE : Option PDF) (p : Provider)
    (h : cacheEntryValid asE = true) :
    ∃ df, asE = some (some df) ∧
      allstarStep asE adE p = (df, getOrEmptyDF adE, []) := by
  rcases asE with _ | v
  · exact absurd h (by simp [cacheEntryValid])
  rcases v with _ | df
  · exact absurd h (by simp [cacheEntryValid, is_valid_df])
  refine ⟨df, rfl, ?_⟩
  unfold allstarStep
  dsimp only
  rw [if_pos (show is_valid_df (some df) = true from h)]

theorem allstarStep_invalid (asE adE : Option PDF) (p : Provider)
    (h : cacheEntryValid asE = false) :
    allstarStep asE adE p
      = (p.allstarStatsDF, some p.allstarDetailedDF,
         [PCall.allstarStats, PCall.allstarDetailed]) := by
  rcases asE with _ | v
  · rfl
  rcases v with _ | df
  · rfl
  unfold allstarStep
  dsimp only
  simp only [cacheEntryValid] at h
  rw [if_neg (by simp [h])]

theorem runMain_elim (cache : Cache) (p : Provider) (snap : Snapshot)
    (calls : List PCall) (h : runMain cache p = some (snap, calls)) :
    ∃ r, careerStep cache.career_basic cache.career_advanced (p.gameLogDF s2526) p
        = some r ∧
      snap = ⟨r.1, r.2.1, r.2.2.1,
        (refreshStep cache.game_logs_2024_25 (p.gameLogDF s2425) (PCall.gameLog s2425)).1,
        (refreshStep cache.game_logs_2023_24 (p.gameLogDF s2324) (PCall.gameLog s2324)).1,
        (shotFold cache p).1,
        (allstarStep cache.allstar_stats cache.allstar_detailed_stats p).1,
        (allstarStep cache.allstar_stats cache.allstar_detailed_stats p).2.1,
        p.leagueFTDF⟩ ∧
      calls = PCall.gameLog s2526 ::
        (r.2.2.2
          ++ (refreshStep cache.game_logs_2024_25 (p.gameLogDF s2425) (PCall.gameLog s2425)).2
          ++ (refreshStep cache.game_logs_2023_24 (p.gameLogDF s2324) (PCall.gameLog s2324)).2
          ++ (shotFold cache p).2
          ++ (allstarStep cache.allstar_stats cache.allstar_detailed_stats p).2.2
          ++ [PCall.leagueFT]) := by
  unfold runMain at h
  rcases Option.map_eq_some'.mp h with ⟨r, hr, hrest⟩
  refine ⟨r, hr, ?_, ?_⟩
  · have : snap = (restOfRun cache p r).1 := by rw [hrest]
    rw [this]
    rfl
  · have : calls = (restOfRun cache p r).2 := by rw [hrest]
    rw [this]
    rfl

theorem local_patch_success (career logs : DF) (j idx : Nat)
    (hle : logs.isEmpty = false) (hce : career.isEmpty = false)
    (hsid : colIdx career sidCol = some j)
    (hfi : firstIdxFrom career.rows j = some idx)
    (hreq : ∀ c ∈ reqCols, (colIdx logs c).isSome) :
    local_patch_career_stats career logs
      = (some (applyUpdates career idx (urSpec logs logs.rows.length)),
         coerceLogs logs) := by
  unfold local_patch_career_stats
  rw [if_neg (by rw [hle, hce]; simp)]
  have hn : (coerceLogs logs).rows.length = logs.rows.length := coerceLogs_rows_length logs
  have hne : logs.rows.length ≠ 0 := by
    have := (isEmpty_false_iff logs).mp hle
    simpa [List.length_eq_zero] using this.1
  unfold local_patch_result
  rw [if_neg (by rw [hn]; exact hne), hn,
    updated_row_calc_eq logs logs.rows.length hreq, hsid]
  dsimp only
  rw [hfi]

theorem listGet?_set_ne {α : Type} (l : List α) (i j : Nat) (v : α)
    (h : j ≠ i) : (l.set j v).get? i = l.get? i := by
  rw [List.get?_eq_getElem?, List.get?_eq_getElem?, List.getElem?_set_ne h]

theorem getCell_coerceRowAux_agg (cols : List String) (k j : Nat) (r : List Cell)
    (hj : j < r.length)
    (hc : cols_to_agg.contains (cols.getD (k + j) "") = true) :
    getCell (coerceRowAux cols k r) j = Cell.num (cellToQ (getCell r j)) := by
  induction r generalizing k j with
  | nil => simp at hj
  | cons c t ih =>
    cases j with
    | zero =>
      show (if cols_to_agg.contains (cols.getD k "") then Cell.num (cellToQ c) else c)
        = Cell.num (cellToQ c)
      rw [if_pos (by simpa using hc)]
    | succ m =>
      show getCell (coerceRowAux cols (k + 1) t) m = Cell.num (cellToQ (getCell t m))
      exact ih (k + 1) m (by simpa using hj)
        (by have : k + 1 + m = k + (m + 1) := by omega
            rw [this]; exact hc)

theorem getCell_coerceRowAux_notagg (cols : List String) (k j : Nat) (r : List Cell)
    (hc : cols_to_agg.contains (cols.getD (k + j) "") = false) :
    getCell (coerceRowAux cols k r) j = getCell r j := by
  induction r generalizing k j with
  | nil => rfl
  | cons c t ih =>
    cases j with
    | zero =>
      show (if cols_to_agg.contains (cols.getD k "") then Cell.num (cellToQ c) else c) = c
      rw [if_neg (by simpa using hc)]
    | succ m =>
      show getCell (coerceRowAux cols (k + 1) t) m = getCell t m
      exact ih (k + 1) m
        (by have : k + 1 + m = k + (m + 1) := by omega
            rw [this]; exact hc)

theorem coerceLogs_row (logs : DF) (i : Nat) (hi : i < logs.rows.length) :
    (coerceLogs logs).rows.getD i [] = coerceRow logs.cols (logs.rows.getD i []) := by
  have hg : logs.rows.get? i = some (logs.rows.get ⟨i, hi⟩) := List.get?_eq_get hi
  have hm : (coerceLogs logs).rows.get? i
      = some (coerceRow logs.cols (logs.rows.get ⟨i, hi⟩)) := by
    show (logs.rows.map (coerceRow logs.cols)).get? i = _
    rw [List.get?_eq_getElem?, List.getElem?_map, ← List.get?_eq_getElem?, hg]
    rfl
  rw [listGetD_of_get? _ _ _ _ hm, listGetD_of_get? _ _ _ _ hg]

/-! Claim theorems. -/

/-- C3 counterexample: a cache value that is present, non-null and has one
row (a row with no columns, as pandas allows) is rejected by the validity
check, although the claim as stated says any present non-null table with at
least one row passes. -/
theorem C3_counterexample :
    is_valid_df (some (DF.mk [] [[]])) = false ∧ (DF.mk [] [[]]).rows.length = 1 := by
  exact ⟨rfl, rfl⟩

/-- C3 (amended): the validity check — including the key-presence test that
guards it in `main` — accepts exactly a present, non-null table that is
non-empty in the pandas sense: at least one row AND at least one column.
The check is a pure function of the entry, hence side-effect free. -/
theorem C3_valid_iff (e : Option PDF) :
    cacheEntryValid e = true ↔
      ∃ df, e = some (some df) ∧ df.rows ≠ [] ∧ df.cols ≠ [] := by
  rcases e with _ | v
  · simp [cacheEntryValid]
  rcases v with _ | df
  · simp [cacheEntryValid, is_valid_df]
  constructor
  · intro h
    refine ⟨df, rfl, ?_⟩
    have hv : is_valid_df (some df) = true := h
    simp only [is_valid_df, Bool.not_eq_true'] at hv
    exact (isEmpty_false_iff df).mp hv
  · rintro ⟨df', he, h1, h2⟩
    cases he
    show is_valid_df (some df) = true
    simp only [is_valid_df, Bool.not_eq_true']
    exact (isEmpty_false_iff df).mpr ⟨h1, h2⟩

/-- C2: when the cached career table is valid and holds a current-season row
whose games-played value is at least the number of freshly fetched log rows,
the career decision returns the cached table itself — bit-identical, no
provider call, logs untouched. -/
theorem C2_skip_identical (ae : Option PDF) (df logs : DF) (p : Provider)
    (j jgp : Nat) (r : List Cell) (g : Int)
    (hval : is_valid_df (some df) = true)
    (hsid : colIdx df sidCol = some j)
    (hfind : df.rows.find? (fun row => cellEqStr (getCell row j) s2526) = some r)
    (hgp : colIdx df gpCol = some jgp)
    (hint : cellToInt (getCell r jgp) = some g)
    (hge : (logs.rows.length : Int) ≤ g) :
    careerStep (some (some df)) ae logs p = some (df, getOrEmptyDF ae, logs, []) := by
  simp only [careerStep]
  rw [if_pos hval, hsid]
  dsimp only
  rw [hfind]
  dsimp only
  rw [hgp]
  dsimp only
  rw [hint]
  dsimp only
  rw [if_pos hge]

/-- C2 witness: a cached table with 10 games played against a one-row log. -/
theorem C2_skip_identical_witness :
    (is_valid_df (some c2wCareer) = true ∧
     colIdx c2wCareer sidCol = some 0 ∧
     c2wCareer.rows.find? (fun row => cellEqStr (getCell row 0) s2526)
       = some [Cell.str s2526, Cell.num 10] ∧
     colIdx c2wCareer gpCol = some 1 ∧
     cellToInt (getCell [Cell.str s2526, Cell.num 10] 1) = some 10 ∧
     ((c2wLogs.rows.length : Int) ≤ 10)) ∧
    careerStep (some (some c2wCareer)) none c2wLogs pZero
      = some (c2wCareer, some (DF.mk [] []), c2wLogs, []) :=
  ⟨by decide,
   C2_skip_identical none c2wCareer c2wLogs pZero 0 1
     [Cell.str s2526, Cell.num 10] 10 (by decide) (by decide) (by decide)
     (by decide) (by decide) (by decide)⟩

/-- C4 counterexample: a valid cached career table that merely lacks the
season-identifier column makes the run raise a `KeyError` instead of
triggering the full career re-fetch the claim promises. -/
theorem C4_counterexample :
    is_valid_df (some c4cexCareer) = true ∧
    (c4cexCareer.rows.getD 0 []).all (fun c => !cellEqStr c s2526) = true ∧
    careerStep (some (some c4cexCareer)) none (DF.mk ["PTS"] [[Cell.num 1]]) pZero
      = none := by
  decide

/-- C4 (amended): when the cached career entry fails the validity check, or
is valid, has a season-identifier column and contains no current-season row,
the reconciliation is skipped and both career datasets are re-fetched from
the provider.  (A valid table without the season-identifier column instead
raises, aborting the run.) -/
theorem C4_refetch (ce ae : Option PDF) (logs : DF) (p : Provider)
    (h : cacheEntryValid ce = false ∨
      ∃ df j, ce = some (some df) ∧ is_valid_df (some df) = true ∧
        colIdx df sidCol = some j ∧
        df.rows.find? (fun row => cellEqStr (getCell row j) s2526) = none) :
    careerStep ce ae logs p
      = some (p.careerBasicDF, some p.careerAdvDF, logs,
              [PCall.careerBasic, PCall.careerAdv]) := by
  rcases h with h | ⟨df, j, hce, hval, hsid, hnone⟩
  · rcases ce with _ | v
    · rfl
    rcases v with _ | df
    · rfl
    simp only [cacheEntryValid] at h
    simp only [careerStep]
    rw [if_neg (by simp [h])]
  · subst hce
    simp only [careerStep]
    rw [if_pos hval, hsid]
    dsimp only
    rw [hnone]

/-- C4 witness: an absent career entry forces the full career fetch. -/
theorem C4_refetch_witness :
    cacheEntryValid none = false ∧
    careerStep none none (DF.mk [] []) pZero
      = some (pZero.careerBasicDF, some pZero.careerAdvDF, DF.mk [] [],
              [PCall.careerBasic, PCall.careerAdv]) :=
  ⟨rfl, C4_refetch none none (DF.mk [] []) pZero (Or.inl rfl)⟩

/-- C8: a failed cache deserialization degrades to the empty snapshot, and a
run over the empty cache completes without error, takes the fetch branch for
every dataset (the full ordered call list below), and saves the freshly
fetched value for every key — never a crash. -/
theorem C8_corrupt_cache_cold_start (p : Provider) :
    loadCache none = emptyCache ∧
    runMain emptyCache p = some
      (⟨p.careerBasicDF, some p.careerAdvDF, p.gameLogDF s2526,
        p.gameLogDF s2425, p.gameLogDF s2324,
        [(s2526, some (p.shotChartDF s2526)), (s2223, some (p.shotChartDF s2223)),
         (s2324, some (p.shotChartDF s2324)), (s2425, some (p.shotChartDF s2425))],
        p.allstarStatsDF, some p.allstarDetailedDF, p.leagueFTDF⟩,
       [PCall.gameLog s2526, PCall.careerBasic, PCall.careerAdv,
        PCall.gameLog s2425, PCall.gameLog s2324,
        PCall.shotChart s2526, PCall.shotChart s2223, PCall.shotChart s2324,
        PCall.shotChart s2425, PCall.allstarStats, PCall.allstarDetailed,
        PCall.leagueFT]) :=
  ⟨rfl, rfl⟩

/-- C10: with a non-empty log table and non-empty career table, the patch
mutates the log argument in place before doing anything else: the caller-
visible log state equals the coerced table, whose listed stat columns are
numeric with non-numeric or missing cells as 0 and whose other columns are
untouched. -/
theorem C10_logs_mutated (career logs : DF)
    (hlogs : logs.isEmpty = false) (hcar : career.isEmpty = false)
    (hwf : DF.WF logs) :
    (local_patch_career_stats career logs).2 = coerceLogs logs ∧
    (coerceLogs logs).cols = logs.cols ∧
    (coerceLogs logs).rows.length = logs.rows.length ∧
    (∀ c ∈ cols_to_agg, ∀ j, colIdx logs c = some j → ∀ i, i < logs.rows.length →
      getCell ((coerceLogs logs).rows.getD i []) j
        = Cell.num (cellToQ (getCell (logs.rows.getD i []) j))) ∧
    (∀ j, j < logs.cols.length → logs.cols.getD j "" ∉ cols_to_agg →
      ∀ i, i < logs.rows.length →
        getCell ((coerceLogs logs).rows.getD i []) j
          = getCell (logs.rows.getD i []) j) := by
  refine ⟨?_, rfl, coerceLogs_rows_length logs, ?_, ?_⟩
  · unfold local_patch_career_stats
    rw [if_neg (by rw [hlogs, hcar]; simp)]
  · intro c hc j hj i hi
    have hg := List.get?_eq_get hi
    have hgd := listGetD_of_get? logs.rows i _ [] hg
    have hmem : logs.rows.getD i [] ∈ logs.rows := by
      rw [hgd]
      exact List.get_mem logs.rows i hi
    rw [coerceLogs_row logs i hi]
    unfold coerceRow
    apply getCell_coerceRowAux_agg
    · rw [hwf (logs.rows.getD i []) hmem]
      exact colIdx_lt logs c j hj
    · rw [Nat.zero_add,
        listGetD_of_get? logs.cols j c "" (idxOf?_get? logs.cols c j hj)]
      exact List.elem_eq_true_of_mem hc
  · intro j hj hnot i hi
    rw [coerceLogs_row logs i hi]
    unfold coerceRow
    apply getCell_coerceRowAux_notagg
    rw [Nat.zero_add]
    simpa using hnot

/-- C10 witness: a log row with a non-numeric minutes cell is coerced to 0
in place while the non-stat matchup column is untouched. -/
theorem C10_logs_mutated_witness :
    (c10wLogs.isEmpty = false ∧ c10wCareer.isEmpty = false ∧ DF.WF c10wLogs) ∧
    (local_patch_career_stats c10wCareer c10wLogs).2 = coerceLogs c10wLogs ∧
    getCell ((coerceLogs c10wLogs).rows.getD 0 []) 0
      = Cell.num (cellToQ (getCell (c10wLogs.rows.getD 0 []) 0)) ∧
    getCell ((coerceLogs c10wLogs).rows.getD 0 []) 1
      = getCell (c10wLogs.rows.getD 0 []) 1 :=
  ⟨⟨by decide, by decide, by decide⟩,
   (C10_logs_mutated c10wCareer c10wLogs (by decide) (by decide) (by decide)).1,
   (C10_logs_mutated c10wCareer c10wLogs (by decide) (by decide) (by decide)).2.2.2.1
     "MIN" (by decide) 0 (by decide) 0 (by decide),
   (C10_logs_mutated c10wCareer c10wLogs (by decide) (by decide) (by decide)).2.2.2.2
     1 (by decide) (by decide) 0 (by decide)⟩

/-- C5: whenever the patch returns a career table, every row whose
season-identifier cell is not the current season is returned unchanged in
every field (and the column list is unchanged). -/
theorem C5_prior_rows_untouched (career logs career2 logsOut : DF)
    (h : local_patch_career_stats career logs = (some career2, logsOut)) :
    career2.cols = career.cols ∧
    ∀ i, (∀ j, colIdx career sidCol = some j →
        cellEqStr (getCell (career.rows.getD i []) j) s2526 = false) →
      career2.rows.get? i = career.rows.get? i := by
  unfold local_patch_career_stats at h
  by_cases hg : logs.isEmpty || career.isEmpty
  · rw [if_pos hg] at h
    injection h with h1 h2
    injection h1 with h1
    subst h1
    exact ⟨rfl, fun i _ => rfl⟩
  · rw [if_neg hg] at h
    injection h with h1 h2
    unfold local_patch_result at h1
    by_cases hn : (coerceLogs logs).rows.length = 0
    · rw [if_pos hn] at h1
      injection h1 with h1
      subst h1
      exact ⟨rfl, fun i _ => rfl⟩
    · rw [if_neg hn] at h1
      cases hur : updated_row_calc (coerceLogs logs) (coerceLogs logs).rows.length with
      | none =>
        rw [hur] at h1
        exact Option.noConfusion h1
      | some ur =>
        rw [hur] at h1
        dsimp only at h1
        cases hsid : colIdx career sidCol with
        | none =>
          rw [hsid] at h1
          exact Option.noConfusion h1
        | some j =>
          rw [hsid] at h1
          dsimp only at h1
          cases hfi : firstIdxFrom career.rows j with
          | none =>
            rw [hfi] at h1
            injection h1 with h1
            subst h1
            exact ⟨rfl, fun i _ => rfl⟩
          | some idx =>
            rw [hfi] at h1
            injection h1 with h1
            subst h1
            refine ⟨rfl, ?_⟩
            intro i hno
            obtain ⟨r0, hr0, hcell⟩ := firstIdxFrom_get? career.rows j idx hfi
            have hne : idx ≠ i := by
              intro he
              subst he
              have hx := hno j rfl
              rw [listGetD_of_get? career.rows idx r0 [] hr0, hcell] at hx
              exact Bool.noConfusion hx
            exact listGet?_set_ne career.rows i idx _ hne

/-- C5 witness: the prior-season row of a two-row career table survives the
patch byte-for-byte. -/
theorem C5_prior_rows_untouched_witness :
    local_patch_career_stats c5wCareer c5wLogs
      = (some (applyUpdates c5wCareer 1 (urSpec c5wLogs 1)), coerceLogs c5wLogs) ∧
    (applyUpdates c5wCareer 1 (urSpec c5wLogs 1)).cols = c5wCareer.cols ∧
    (applyUpdates c5wCareer 1 (urSpec c5wLogs 1)).rows.get? 0
      = c5wCareer.rows.get? 0 := by
  have h : local_patch_career_stats c5wCareer c5wLogs
      = (some (applyUpdates c5wCareer 1 (urSpec c5wLogs 1)), coerceLogs c5wLogs) :=
    local_patch_success c5wCareer c5wLogs 0 1 (by decide) (by decide) (by decide)
      (by decide) (by decide)
  refine ⟨h, (C5_prior_rows_untouched c5wCareer c5wLogs _ _ h).1, ?_⟩
  apply (C5_prior_rows_untouched c5wCareer c5wLogs _ _ h).2 0
  intro j hj
  have h0 : colIdx c5wCareer sidCol = some 0 := by decide
  rw [h0] at hj
  injection hj with hj
  subst hj
  decide

/-- C1 counterexample: with the cached current-season games-played (0)
strictly below the log count (1), a log table lacking the unguarded `PTS`
column makes the reconciliation raise a `KeyError` instead of producing a
row with the missing column averaged as 0, as the claim states. -/
theorem C1_counterexample :
    c1cexLogs.isEmpty = false ∧
    cellToInt (getCell (c1cexCareer.rows.getD 0 []) 1) = some 0 ∧
    ((0 : Int) < (c1cexLogs.rows.length : Int)) ∧
    (local_patch_career_stats c1cexCareer c1cexLogs).1 = none := by
  decide

/-- C1 (amended): when the cached current-season games-played value is
strictly below the log count and the log table carries the unguarded columns
(points, rebounds, assists and the three make/attempt pairs), the
reconciliation succeeds and the recomputed current-season row holds: the log
count as games played, the arithmetic mean over all log rows (missing cells
as 0, absent guarded columns as 0) for every per-game counting stat column,
and makes-over-attempts (0 when the attempt sum is not positive) for each
shooting percentage. -/
theorem C1_patch_recompute (career logs : DF) (j idx jgp : Nat) (g : Int)
    (hlogs : logs.isEmpty = false) (hcar : career.isEmpty = false)
    (hwf : (career.rows.getD idx []).length = career.cols.length)
    (hsid : colIdx career sidCol = some j)
    (hfi : firstIdxFrom career.rows j = some idx)
    (hgp : colIdx career gpCol = some jgp)
    (_hint : cellToInt (getCell (career.rows.getD idx []) jgp) = some g)
    (_hlt : g < (logs.rows.length : Int))
    (hreq : ∀ c ∈ reqCols, (colIdx logs c).isSome) :
    ∃ career2,
      local_patch_career_stats career logs = (some career2, coerceLogs logs) ∧
      getCell (career2.rows.getD idx []) jgp = Cell.num ((logs.rows.length : ℚ)) ∧
      (∀ c ∈ cols_to_agg, ∀ jc, colIdx career c = some jc →
        getCell (career2.rows.getD idx []) jc = Cell.num (specStatMean logs c)) ∧
      (∀ jc, colIdx career "FG_PCT" = some jc →
        getCell (career2.rows.getD idx []) jc
          = Cell.num (specShootingPct logs "FGM" "FGA")) ∧
      (∀ jc, colIdx career "FG3_PCT" = some jc →
        getCell (career2.rows.getD idx []) jc
          = Cell.num (specShootingPct logs "FG3M" "FG3A")) ∧
      (∀ jc, colIdx career "FT_PCT" = some jc →
        getCell (career2.rows.getD idx []) jc
          = Cell.num (specShootingPct logs "FTM" "FTA")) := by
  have hidx : idx < career.rows.length := firstIdxFrom_lt career.rows j idx hfi
  have hrow : (applyUpdates career idx (urSpec logs logs.rows.length)).rows.getD idx []
      = applyRow career (urSpec logs logs.rows.length) (career.rows.getD idx []) := by
    unfold applyUpdates
    exact listGetD_set_self career.rows idx _ [] hidx
  have hnd : ((urSpec logs logs.rows.length).map Prod.fst).Nodup := by
    have he : (urSpec logs logs.rows.length).map Prod.fst = urKeys := rfl
    rw [he]
    decide
  have hget : ∀ (c : String) (v : ℚ), (c, v) ∈ urSpec logs logs.rows.length →
      ∀ jc, colIdx career c = some jc →
      getCell ((applyUpdates career idx (urSpec logs logs.rows.length)).rows.getD idx []) jc
        = Cell.num v := by
    intro c v hmem jc hjc
    rw [hrow]
    apply getCell_applyRow_key career _ _ c v jc hnd hmem hjc
    rw [hwf]
    exact colIdx_lt career c jc hjc
  refine ⟨applyUpdates career idx (urSpec logs logs.rows.length),
    local_patch_success career logs j idx hlogs hcar hsid hfi hreq,
    hget gpCol ((logs.rows.length : ℚ)) (by simp [urSpec, gpCol]) jgp hgp, ?_, ?_, ?_, ?_⟩
  · intro c hc jc hjc
    simp only [cols_to_agg, List.mem_cons, List.not_mem_nil, or_false] at hc
    rcases hc with rfl | rfl | rfl | rfl | rfl | rfl | rfl | rfl | rfl | rfl | rfl |
      rfl | rfl | rfl <;>
      exact hget _ _ (by simp [urSpec]) jc hjc
  · intro jc hjc
    exact hget _ _ (by simp [urSpec]) jc hjc
  · intro jc hjc
    exact hget _ _ (by simp [urSpec]) jc hjc
  · intro jc hjc
    exact hget _ _ (by simp [urSpec]) jc hjc

/-- C1 witness: a two-game log against a career table caching one game; the
recomputed row satisfies the amended claim at this input, and the mean and
shooting-percentage formulas evaluate to 15 points and one half. -/
theorem C1_patch_recompute_witness :
    (c1wLogs.isEmpty = false ∧ c1wCareer.isEmpty = false ∧
     (c1wCareer.rows.getD 0 []).length = c1wCareer.cols.length ∧
     colIdx c1wCareer sidCol = some 0 ∧
     firstIdxFrom c1wCareer.rows 0 = some 0 ∧
     colIdx c1wCareer gpCol = some 1 ∧
     cellToInt (getCell (c1wCareer.rows.getD 0 []) 1) = some 1 ∧
     ((1 : Int) < (c1wLogs.rows.length : Int)) ∧
     (∀ c ∈ reqCols, (colIdx c1wLogs c).isSome)) ∧
    specStatMean c1wLogs "PTS" = 15 ∧
    specShootingPct c1wLogs "FGM" "FGA" = 1 / 2 ∧
    (∃ career2,
      local_patch_career_stats c1wCareer c1wLogs = (some career2, coerceLogs c1wLogs) ∧
      getCell (career2.rows.getD 0 []) 1 = Cell.num ((c1wLogs.rows.length : ℚ)) ∧
      (∀ c ∈ cols_to_agg, ∀ jc, colIdx c1wCareer c = some jc →
        getCell (career2.rows.getD 0 []) jc = Cell.num (specStatMean c1wLogs c)) ∧
      (∀ jc, colIdx c1wCareer "FG_PCT" = some jc →
        getCell (career2.rows.getD 0 []) jc
          = Cell.num (specShootingPct c1wLogs "FGM" "FGA")) ∧
      (∀ jc, colIdx c1wCareer "FG3_PCT" = some jc →
        getCell (career2.rows.getD 0 []) jc
          = Cell.num (specShootingPct c1wLogs "FG3M" "FG3A")) ∧
      (∀ jc, colIdx c1wCareer "FT_PCT" = some jc →
        getCell (career2.rows.getD 0 []) jc
          = Cell.num (specShootingPct c1wLogs "FTM" "FTA"))) := by
  refine ⟨by decide, ?_, ?_,
    C1_patch_recompute c1wCareer c1wLogs 0 0 1 1 (by decide) (by decide) (by decide)
      (by decide) (by decide) (by decide) (by decide) (by decide) (by decide)⟩
  · show specStatMean c1wLogs "PTS" = 15
    simp [specStatMean, c1wLogs, colIdx, idxOf?, rowSumAt, getCell, cellToQ]
    norm_num
  · show specShootingPct c1wLogs "FGM" "FGA" = 1 / 2
    simp [specShootingPct, specColSum, c1wLogs, colIdx, idxOf?, rowSumAt,
      getCell, cellToQ]
    norm_num

theorem applyRow_applyUpdates (career : DF) (idx : Nat)
    (u1 ur : List (String × ℚ)) (z : List Cell) :
    applyRow (applyUpdates career idx u1) ur z = applyRow career ur z := rfl

theorem applyUpdates_idem (career : DF) (idx : Nat) (ur : List (String × ℚ))
    (hidx : idx < career.rows.length) (hnd : (ur.map Prod.fst).Nodup) :
    applyUpdates (applyUpdates career idx ur) idx ur = applyUpdates career idx ur := by
  have h1 : (applyUpdates career idx ur).rows.getD idx []
      = applyRow career ur (career.rows.getD idx []) := by
    show (career.rows.set idx (applyRow career ur (career.rows.getD idx []))).getD idx []
      = applyRow career ur (career.rows.getD idx [])
    exact listGetD_set_self career.rows idx _ [] hidx
  have key : (applyUpdates career idx ur).rows.set idx
      (applyRow (applyUpdates career idx ur) ur ((applyUpdates career idx ur).rows.getD idx []))
      = (applyUpdates career idx ur).rows := by
    rw [h1, applyRow_applyUpdates, applyRow_idem career ur _ hnd]
    show (career.rows.set idx _).set idx _ = career.rows.set idx _
    exact List.set_set _ _ career.rows idx
  show DF.mk (applyUpdates career idx ur).cols
      ((applyUpdates career idx ur).rows.set idx
        (applyRow (applyUpdates career idx ur) ur
          ((applyUpdates career idx ur).rows.getD idx []))) = applyUpdates career idx ur
  rw [key]

/-- C9: the reconciliation is idempotent: if a patch run returns a career
table (and a coerced log state), running the patch again on that result with
the same log input returns exactly the same table and log state — the second
application writes identical values. -/
theorem C9_patch_idempotent (career logs c1 l1 : DF)
    (h : local_patch_career_stats career logs = (some c1, l1)) :
    local_patch_career_stats c1 logs = (some c1, l1) := by
  unfold local_patch_career_stats at h
  by_cases hg : logs.isEmpty || career.isEmpty
  · rw [if_pos hg] at h
    injection h with h1 h2
    injection h1 with h1
    subst h1
    subst h2
    unfold local_patch_career_stats
    rw [if_pos hg]
  · rw [if_neg hg] at h
    simp only [Bool.or_eq_true, not_or, Bool.not_eq_true] at hg
    injection h with h1 h2
    subst h2
    unfold local_patch_result at h1
    by_cases hn : (coerceLogs logs).rows.length = 0
    · rw [if_pos hn] at h1
      injection h1 with h1
      subst h1
      unfold local_patch_career_stats
      rw [if_neg (by rw [hg.1, hg.2]; simp)]
      unfold local_patch_result
      rw [if_pos hn]
    · rw [if_neg hn] at h1
      cases hur : updated_row_calc (coerceLogs logs) (coerceLogs logs).rows.length with
      | none =>
        rw [hur] at h1
        exact Option.noConfusion h1
      | some ur =>
        rw [hur] at h1
        dsimp only at h1
        cases hsid : colIdx career sidCol with
        | none =>
          rw [hsid] at h1
          exact Option.noConfusion h1
        | some j =>
          rw [hsid] at h1
          dsimp only at h1
          cases hfi : firstIdxFrom career.rows j with
          | none =>
            rw [hfi] at h1
            injection h1 with h1
            subst h1
            unfold local_patch_career_stats
            rw [if_neg (by rw [hg.1, hg.2]; simp)]
            unfold local_patch_result
            rw [if_neg hn, hur]
            dsimp only
            rw [hsid]
            dsimp only
            rw [hfi]
          | some idx =>
            rw [hfi] at h1
            injection h1 with h1
            subst h1
            have hkeys : ur.map Prod.fst = urKeys :=
              updated_row_keys (coerceLogs logs) (coerceLogs logs).rows.length ur hur
            have hnd : (ur.map Prod.fst).Nodup := by
              rw [hkeys]
              decide
            have hidx : idx < career.rows.length := firstIdxFrom_lt career.rows j idx hfi
            obtain ⟨r0, hr0, hcell⟩ := firstIdxFrom_get? career.rows j idx hfi
            have hgd : career.rows.getD idx [] = r0 :=
              listGetD_of_get? career.rows idx r0 [] hr0
            have hcarne := (isEmpty_false_iff career).mp hg.2
            have hnokey : ∀ q ∈ ur, colIdx career q.1 ≠ some j := by
              intro q hq hcq
              have hq1 : q.1 ∈ urKeys := by
                rw [← hkeys]
                exact List.mem_map_of_mem Prod.fst hq
              have hqs : q.1 ≠ sidCol := by
                intro he
                rw [he] at hq1
                exact absurd hq1 (by decide)
              have hg1 := idxOf?_get? career.cols q.1 j hcq
              have hg2 := idxOf?_get? career.cols sidCol j hsid
              rw [hg1] at hg2
              exact hqs (Option.some.inj hg2)
            have hone : (applyUpdates career idx ur).isEmpty = false := by
              rw [isEmpty_false_iff]
              refine ⟨?_, hcarne.2⟩
              show career.rows.set idx _ ≠ []
              intro he
              have hl := congrArg List.length he
              rw [List.length_set] at hl
              exact hcarne.1 (List.length_eq_zero.mp hl)
            have hsid1 : colIdx (applyUpdates career idx ur) sidCol = some j := hsid
            have hfi1 : firstIdxFrom (applyUpdates career idx ur).rows j = some idx := by
              show firstIdxFrom
                (career.rows.set idx (applyRow career ur (career.rows.getD idx []))) j
                = some idx
              rw [hgd]
              rw [firstIdxFrom_set career.rows j idx r0 (applyRow career ur r0) hr0
                (by rw [getCell_applyRow_notkey career ur r0 j hnokey])]
              exact hfi
            unfold local_patch_career_stats
            rw [if_neg (by rw [hg.1, hone]; simp)]
            unfold local_patch_result
            rw [if_neg hn, hur]
            dsimp only
            rw [hsid1]
            dsimp only
            rw [hfi1]
            dsimp only
            rw [applyUpdates_idem career idx ur hidx hnd]

/-- C9 witness: patching the already-patched two-row career table with the
same one-game log reproduces it exactly. -/
theorem C9_patch_idempotent_witness :
    local_patch_career_stats c5wCareer c5wLogs
      = (some (applyUpdates c5wCareer 1 (urSpec c5wLogs 1)), coerceLogs c5wLogs) ∧
    local_patch_career_stats (applyUpdates c5wCareer 1 (urSpec c5wLogs 1)) c5wLogs
      = (some (applyUpdates c5wCareer 1 (urSpec c5wLogs 1)), coerceLogs c5wLogs) := by
  have h : local_patch_career_stats c5wCareer c5wLogs
      = (some (applyUpdates c5wCareer 1 (urSpec c5wLogs 1)), coerceLogs c5wLogs) :=
    local_patch_success c5wCareer c5wLogs 0 1 (by decide) (by decide) (by decide)
      (by decide) (by decide)
  exact ⟨h, C9_patch_idempotent c5wCareer c5wLogs _ _ h⟩

theorem shotFold_def (cache : Cache) (p : Provider) :
    shotFold cache p = List.foldl (shotSeasonStep p)
      (setA (shotBase cache) s2526 (some (p.shotChartDF s2526)),
       [PCall.shotChart s2526]) pastSeasons := rfl

theorem shotFold_snd_shape (cache : Cache) (p : Provider) :
    ∃ ext, (shotFold cache p).2 = PCall.shotChart s2526 :: ext ∧
      ∀ x ∈ ext, ∃ s ∈ pastSeasons, x = PCall.shotChart s := by
  rw [shotFold_def]
  obtain ⟨ext, he, hx⟩ := shotFoldAux_calls p pastSeasons
    (setA (shotBase cache) s2526 (some (p.shotChartDF s2526))) [PCall.shotChart s2526]
  exact ⟨ext, by rw [he]; rfl, hx⟩

theorem shotFold_all_shotChart (cache : Cache) (p : Provider) :
    ∀ x ∈ (shotFold cache p).2, ∃ t, x = PCall.shotChart t := by
  obtain ⟨ext, he, hx⟩ := shotFold_snd_shape cache p
  rw [he]
  intro x hmem
  rcases List.mem_cons.mp hmem with h1 | h1
  · exact ⟨s2526, h1⟩
  · obtain ⟨s, _, hs⟩ := hx x h1
    exact ⟨s, hs⟩

/-- C6 counterexample: a cache whose valid career table has a current-season
row but no games-played column makes the run abort with a `KeyError`: no shot
chart or leaderboard is fetched and nothing is saved, contrary to the claim
that every run refetches and stores those keys. -/
theorem C6_counterexample :
    cacheEntryValid c6cexCache.career_basic = true ∧
    runMain c6cexCache pZero = none := by
  decide

/-- C6 (amended): on every run that completes, the provider is called for the
current-season game log, the current-season shot chart and the league
leaderboard dataset regardless of cache validity, and the saved snapshot
holds the freshly fetched result under each of the three keys (the game log
possibly with its stat columns numerically coerced by the reconciliation),
never the cached value. -/
theorem C6_always_refetched (cache : Cache) (p : Provider) (snap : Snapshot)
    (calls : List PCall) (h : runMain cache p = some (snap, calls)) :
    PCall.gameLog s2526 ∈ calls ∧
    PCall.shotChart s2526 ∈ calls ∧
    PCall.leagueFT ∈ calls ∧
    snap.league_ft_stats = p.leagueFTDF ∧
    lookupA snap.shot_charts s2526 = some (some (p.shotChartDF s2526)) ∧
    (snap.game_logs_2025_26 = p.gameLogDF s2526 ∨
     snap.game_logs_2025_26 = coerceLogs (p.gameLogDF s2526)) := by
  obtain ⟨r, hcs, hsnap, hcalls⟩ := runMain_elim cache p snap calls h
  obtain ⟨cb, ca, l1, cs1⟩ := r
  subst hsnap
  subst hcalls
  have hscmem : PCall.shotChart s2526 ∈ (shotFold cache p).2 := by
    obtain ⟨ext, he, _⟩ := shotFold_snd_shape cache p
    rw [he]
    exact List.mem_cons_self _ _
  refine ⟨List.mem_cons_self _ _, ?_, ?_, rfl, ?_, ?_⟩
  · apply List.mem_cons_of_mem
    simp [List.mem_append, hscmem]
  · apply List.mem_cons_of_mem
    simp [List.mem_append]
  · show lookupA (shotFold cache p).1 s2526 = some (some (p.shotChartDF s2526))
    rw [shotFold_def]
    rw [shotFoldAux_lookup_ne p pastSeasons _ _ s2526 (by decide)]
    exact lookupA_setA_self (shotBase cache) s2526 _
  · exact careerStep_logs cache.career_basic cache.career_advanced
      (p.gameLogDF s2526) p cb ca l1 cs1 hcs

theorem refreshStep_snd_sub (e : Option PDF) (fresh : DF) (c : PCall) :
    (refreshStep e fresh c).2 = [] ∨ (refreshStep e fresh c).2 = [c] := by
  rcases e with _ | v
  · exact Or.inr rfl
  rcases v with _ | df
  · exact Or.inr rfl
  unfold refreshStep
  dsimp only
  by_cases hv : is_valid_df (some df)
  · rw [if_pos hv]
    exact Or.inl rfl
  · rw [if_neg hv]
    exact Or.inr rfl

theorem allstarStep_snd_sub (asE adE : Option PDF) (p : Provider) :
    (allstarStep asE adE p).2.2 = [] ∨
    (allstarStep asE adE p).2.2 = [PCall.allstarStats, PCall.allstarDetailed] := by
  rcases asE with _ | v
  · exact Or.inr rfl
  rcases v with _ | df
  · exact Or.inr rfl
  unfold allstarStep
  dsimp only
  by_cases hv : is_valid_df (some df)
  · rw [if_pos hv]
    exact Or.inl rfl
  · rw [if_neg hv]
    exact Or.inr rfl

/-- C6 witness: the cold-start run fetches and saves all three volatile
datasets. -/
theorem C6_always_refetched_witness :
    runMain emptyCache pZero = some (c6wSnap, fullCalls) ∧
    PCall.gameLog s2526 ∈ fullCalls ∧
    PCall.shotChart s2526 ∈ fullCalls ∧
    PCall.leagueFT ∈ fullCalls ∧
    c6wSnap.league_ft_stats = pZero.leagueFTDF ∧
    lookupA c6wSnap.shot_charts s2526 = some (some (pZero.shotChartDF s2526)) ∧
    (c6wSnap.game_logs_2025_26 = pZero.gameLogDF s2526 ∨
     c6wSnap.game_logs_2025_26 = coerceLogs (pZero.gameLogDF s2526)) := by
  have h : runMain emptyCache pZero = some (c6wSnap, fullCalls) := by decide
  exact ⟨h, C6_always_refetched emptyCache pZero c6wSnap fullCalls h⟩

/-- C7 counterexample: the All-Star detailed-metrics cache entry is valid on
its own, yet — because the reference table is absent — the provider is called
for it and the cached table is replaced by the fetched one, contradicting the
claimed uniform reuse-if-valid policy. -/
theorem C7_counterexample :
    cacheEntryValid c7cexCache.allstar_detailed_stats = true ∧
    runMain c7cexCache pMark = some (c7cexSnap, fullCalls) ∧
    c7cexSnap.allstar_detailed_stats = some pMark.allstarDetailedDF ∧
    c7cexSnap.allstar_detailed_stats ≠ c7cexCache.allstar_detailed_stats.getD none ∧
    PCall.allstarDetailed ∈ fullCalls := by
  decide

/-- C7 (amended): on every run that completes, the reuse-if-valid policy
holds independently for the previous-season logs, the older-season logs,
each past season's shot table and the All-Star reference table: a valid
cache entry is reused verbatim with no provider call for that key, an
invalid one is fetched and the fetched result saved.  The All-Star
detailed-metrics table does not follow its own entry: it is re-fetched
exactly when the reference table is, and otherwise the cached value (or an
empty table when absent) is carried forward. -/
theorem C7_per_dataset_policy (cache : Cache) (p : Provider) (snap : Snapshot)
    (calls : List PCall) (h : runMain cache p = some (snap, calls)) :
    (cacheEntryValid cache.game_logs_2024_25 = true →
      cache.game_logs_2024_25 = some (some snap.game_logs_2024_25) ∧
      PCall.gameLog s2425 ∉ calls) ∧
    (cacheEntryValid cache.game_logs_2024_25 = false →
      snap.game_logs_2024_25 = p.gameLogDF s2425 ∧ PCall.gameLog s2425 ∈ calls) ∧
    (cacheEntryValid cache.game_logs_2023_24 = true →
      cache.game_logs_2023_24 = some (some snap.game_logs_2023_24) ∧
      PCall.gameLog s2324 ∉ calls) ∧
    (cacheEntryValid cache.game_logs_2023_24 = false →
      snap.game_logs_2023_24 = p.gameLogDF s2324 ∧ PCall.gameLog s2324 ∈ calls) ∧
    (∀ s ∈ pastSeasons,
      (cacheEntryValid (lookupA (shotBase cache) s) = true →
        lookupA snap.shot_charts s = lookupA (shotBase cache) s ∧
        PCall.shotChart s ∉ calls) ∧
      (cacheEntryValid (lookupA (shotBase cache) s) = false →
        lookupA snap.shot_charts s = some (some (p.shotChartDF s)) ∧
        PCall.shotChart s ∈ calls)) ∧
    (cacheEntryValid cache.allstar_stats = true →
      cache.allstar_stats = some (some snap.allstar_stats) ∧
      PCall.allstarStats ∉ calls ∧
      snap.allstar_detailed_stats = getOrEmptyDF cache.allstar_detailed_stats ∧
      PCall.allstarDetailed ∉ calls) ∧
    (cacheEntryValid cache.allstar_stats = false →
      snap.allstar_stats = p.allstarStatsDF ∧ PCall.allstarStats ∈ calls ∧
      snap.allstar_detailed_stats = some p.allstarDetailedDF ∧
      PCall.allstarDetailed ∈ calls) := by
  obtain ⟨r, hcs, hsnap, hcalls⟩ := runMain_elim cache p snap calls h
  obtain ⟨cb, ca, l1, cs1⟩ := r
  subst hsnap
  subst hcalls
  have hcc := careerStep_calls cache.career_basic cache.career_advanced
    (p.gameLogDF s2526) p cb ca l1 cs1 hcs
  have hccN : ∀ x, x ∈ cs1 → x = PCall.careerBasic ∨ x = PCall.careerAdv := by
    intro x hx
    rcases hcc with rfl | rfl
    · simp at hx
    · simpa using hx
  have hBsub := refreshStep_snd_sub cache.game_logs_2023_24 (p.gameLogDF s2324)
    (PCall.gameLog s2324)
  have hAsub := refreshStep_snd_sub cache.game_logs_2024_25 (p.gameLogDF s2425)
    (PCall.gameLog s2425)
  have hASsub := allstarStep_snd_sub cache.allstar_stats cache.allstar_detailed_stats p
  have hSCall := shotFold_all_shotChart cache p
  have hnotmem : ∀ x : PCall,
      x ≠ PCall.gameLog s2526 →
      x ≠ PCall.careerBasic → x ≠ PCall.careerAdv → x ≠ PCall.leagueFT →
      x ∉ (refreshStep cache.game_logs_2024_25 (p.gameLogDF s2425)
            (PCall.gameLog s2425)).2 →
      x ∉ (refreshStep cache.game_logs_2023_24 (p.gameLogDF s2324)
            (PCall.gameLog s2324)).2 →
      x ∉ (shotFold cache p).2 →
      x ∉ (allstarStep cache.allstar_stats cache.allstar_detailed_stats p).2.2 →
      x ∉ PCall.gameLog s2526 ::
        (cs1 ++ (refreshStep cache.game_logs_2024_25 (p.gameLogDF s2425)
            (PCall.gameLog s2425)).2
          ++ (refreshStep cache.game_logs_2023_24 (p.gameLogDF s2324)
            (PCall.gameLog s2324)).2
          ++ (shotFold cache p).2
          ++ (allstarStep cache.allstar_stats cache.allstar_detailed_stats p).2.2
          ++ [PCall.leagueFT]) := by
    intro x h1 h3 h4 h5 h6 h7 hsc h8 hmem
    simp only [List.mem_cons, List.mem_append, List.mem_singleton] at hmem
    rcases hmem with hm | ((((hm | hm) | hm) | hm) | hm) | hm
    · exact h1 hm
    · rcases hccN x hm with rfl | rfl
      · exact h3 rfl
      · exact h4 rfl
    · exact h6 hm
    · exact h7 hm
    · exact hsc hm
    · exact h8 hm
    · simp only [List.not_mem_nil, or_false] at hm
      exact h5 hm
  refine ⟨?_, ?_, ?_, ?_, ?_, ?_, ?_⟩
  · intro hv
    obtain ⟨df, he, hr⟩ := refreshStep_valid cache.game_logs_2024_25
      (p.gameLogDF s2425) (PCall.gameLog s2425) hv
    constructor
    · show cache.game_logs_2024_25
        = some (some (refreshStep cache.game_logs_2024_25 (p.gameLogDF s2425)
          (PCall.gameLog s2425)).1)
      rw [hr, he]
    · apply hnotmem (PCall.gameLog s2425) (by decide) (by decide) (by decide) (by decide)
      · rw [hr]
        simp
      · rcases hBsub with hb | hb <;> rw [hb] <;> decide
      · intro hx
        obtain ⟨t, ht⟩ := hSCall _ hx
        exact PCall.noConfusion ht
      · rcases hASsub with ha | ha <;> rw [ha] <;> decide
  · intro hv
    have hr := refreshStep_invalid cache.game_logs_2024_25 (p.gameLogDF s2425)
      (PCall.gameLog s2425) hv
    constructor
    · show (refreshStep cache.game_logs_2024_25 (p.gameLogDF s2425)
        (PCall.gameLog s2425)).1 = p.gameLogDF s2425
      rw [hr]
    · apply List.mem_cons_of_mem
      rw [hr]
      simp
  · intro hv
    obtain ⟨df, he, hr⟩ := refreshStep_valid cache.game_logs_2023_24
      (p.gameLogDF s2324) (PCall.gameLog s2324) hv
    constructor
    · show cache.game_logs_2023_24
        = some (some (refreshStep cache.game_logs_2023_24 (p.gameLogDF s2324)
          (PCall.gameLog s2324)).1)
      rw [hr, he]
    · apply hnotmem (PCall.gameLog s2324) (by decide) (by decide) (by decide) (by decide)
      · rcases hAsub with ha | ha <;> rw [ha] <;> decide
      · rw [hr]
        simp
      · intro hx
        obtain ⟨t, ht⟩ := hSCall _ hx
        exact PCall.noConfusion ht
      · rcases hASsub with ha | ha <;> rw [ha] <;> decide
  · intro hv
    have hr := refreshStep_invalid cache.game_logs_2023_24 (p.gameLogDF s2324)
      (PCall.gameLog s2324) hv
    constructor
    · show (refreshStep cache.game_logs_2023_24 (p.gameLogDF s2324)
        (PCall.gameLog s2324)).1 = p.gameLogDF s2324
      rw [hr]
    · apply List.mem_cons_of_mem
      rw [hr]
      simp
  · intro s hs
    have hne : s ≠ s2526 := by
      have hs2 : s = s2223 ∨ s = s2324 ∨ s = s2425 := by
        simpa [pastSeasons] using hs
      rcases hs2 with rfl | rfl | rfl <;> decide
    have hpol := shotFoldAux_policy p pastSeasons
      (setA (shotBase cache) s2526 (some (p.shotChartDF s2526)))
      [PCall.shotChart s2526] s hs (by decide)
    rw [lookupA_setA_ne (shotBase cache) s2526 s _ hne] at hpol
    rw [← shotFold_def cache p] at hpol
    constructor
    · intro hv
      obtain ⟨hl, hm⟩ := hpol.1 hv
      refine ⟨hl, ?_⟩
      have hnotSC : PCall.shotChart s ∉ (shotFold cache p).2 := by
        intro hx
        have := hm.mp hx
        simp only [List.mem_singleton] at this
        exact hne (by injection this)
      apply hnotmem (PCall.shotChart s) (by intro hh; exact PCall.noConfusion hh)
        (by intro hh; exact PCall.noConfusion hh) (by intro hh; exact PCall.noConfusion hh)
        (by intro hh; exact PCall.noConfusion hh)
      · rcases hAsub with ha | ha <;> rw [ha]
        · simp
        · intro hx
          simp only [List.mem_singleton] at hx
          exact PCall.noConfusion hx
      · rcases hBsub with hb | hb <;> rw [hb]
        · simp
        · intro hx
          simp only [List.mem_singleton] at hx
          exact PCall.noConfusion hx
      · exact hnotSC
      · rcases hASsub with ha | ha <;> rw [ha]
        · simp
        · intro hx
          rcases List.mem_cons.mp hx with hx1 | hx1
          · exact PCall.noConfusion hx1
          · simp only [List.mem_singleton] at hx1
            exact PCall.noConfusion hx1
    · intro hv
      obtain ⟨hl, hm⟩ := hpol.2 hv
      refine ⟨hl, ?_⟩
      apply List.mem_cons_of_mem
      simp only [List.mem_append]
      exact Or.inl (Or.inl (Or.inr hm))
  · intro hv
    obtain ⟨df, he, hr⟩ := allstarStep_valid cache.allstar_stats
      cache.allstar_detailed_stats p hv
    refine ⟨?_, ?_, ?_, ?_⟩
    · show cache.allstar_stats
        = some (some (allstarStep cache.allstar_stats cache.allstar_detailed_stats p).1)
      rw [hr, he]
    · apply hnotmem PCall.allstarStats (by decide) (by decide) (by decide) (by decide)
      · rcases hAsub with ha | ha <;> rw [ha] <;> decide
      · rcases hBsub with hb | hb <;> rw [hb] <;> decide
      · intro hx
        obtain ⟨t, ht⟩ := hSCall _ hx
        exact PCall.noConfusion ht
      · rw [hr]
        simp
    · show (allstarStep cache.allstar_stats cache.allstar_detailed_stats p).2.1
        = getOrEmptyDF cache.allstar_detailed_stats
      rw [hr]
    · apply hnotmem PCall.allstarDetailed (by decide) (by decide) (by decide) (by decide)
      · rcases hAsub with ha | ha <;> rw [ha] <;> decide
      · rcases hBsub with hb | hb <;> rw [hb] <;> decide
      · intro hx
        obtain ⟨t, ht⟩ := hSCall _ hx
        exact PCall.noConfusion ht
      · rw [hr]
        simp
  · intro hv
    have hr := allstarStep_invalid cache.allstar_stats cache.allstar_detailed_stats p hv
    refine ⟨?_, ?_, ?_, ?_⟩
    · show (allstarStep cache.allstar_stats cache.allstar_detailed_stats p).1
        = p.allstarStatsDF
      rw [hr]
    · apply List.mem_cons_of_mem
      rw [hr]
      simp
    · show (allstarStep cache.allstar_stats cache.allstar_detailed_stats p).2.1
        = some p.allstarDetailedDF
      rw [hr]
    · apply List.mem_cons_of_mem
      rw [hr]
      simp

/-- C7 witness: a cache whose only valid entry is the previous-season log;
that log is reused verbatim with no provider call for it, while the
(absent) All-Star entries are fetched. -/
theorem C7_per_dataset_policy_witness :
    runMain c7wCache pZero = some (c7wSnap, c7wCalls) ∧
    cacheEntryValid c7wCache.game_logs_2024_25 = true ∧
    c7wCache.game_logs_2024_25 = some (some c7wSnap.game_logs_2024_25) ∧
    PCall.gameLog s2425 ∉ c7wCalls ∧
    c7wSnap.allstar_stats = pZero.allstarStatsDF ∧
    PCall.allstarStats ∈ c7wCalls := by
  have h : runMain c7wCache pZero = some (c7wSnap, c7wCalls) := by decide
  have hmain := C7_per_dataset_policy c7wCache pZero c7wSnap c7wCalls h
  exact ⟨h, by decide, (hmain.1 (by decide)).1, (hmain.1 (by decide)).2,
    (hmain.2.2.2.2.2.2 (by decide)).1, (hmain.2.2.2.2.2.2 (by decide)).2.1⟩

end DeniFetch
